import Mathlib

/-!
Verification of `src/main/assetsUtil.ts` (asset discovery, validation,
deduplication and sorting for AdvantageScope).

The TypeScript source is shallowly embedded below.  JavaScript strings are
modelled as Lean `String` (sequences of Unicode scalar values), JavaScript
numbers as `Rat` (every comparison performed by the source is a plain
order comparison, so the rational model is faithful for all reachable
checks; `NaN` inputs, for which every order comparison is false, behave
like a value failing the comparison and are not needed by any theorem
below).  The filesystem is modelled as an explicit structure of functions,
and the single throwing operation reachable from `loadAssets` (the
JavaScript `in` operator applied to a non-object) is modelled with the
`Except Unit` monad.
-/

/-! ### Character-list string machinery

`String.<`, `String.startsWith` and friends do not reduce inside the
kernel, so the JavaScript string operations are implemented directly on
`String.data`. -/

/-- JavaScript `a < b` on strings: lexicographic comparison of code units
(for the names appearing here, identical to code-point order). -/
def clLt : List Char → List Char → Bool
  | [], [] => false
  | [], _ :: _ => true
  | _ :: _, [] => false
  | a :: as, b :: bs =>
    if a.toNat < b.toNat then true
    else if b.toNat < a.toNat then false
    else clLt as bs

/-- JavaScript string `<`. -/
def strLt (a b : String) : Bool := clLt a.data b.data

/-- JavaScript `s.startsWith(p)`. -/
def strStarts (s p : String) : Bool := p.data.isPrefixOf s.data

/-- JavaScript `s.endsWith(":")`, specialised to the one use in the source. -/
def segEndsColon (seg : List Char) : Bool := seg.getLast? == some ':'

/-- First-occurrence removal:
`array.splice(array.indexOf(x), 1)` from the source, on a list known to
contain `x`; `List.erase` removes exactly the first occurrence. -/
def removeFirst (l : List String) (x : String) : List String := l.erase x

/-- Indexed `Array.prototype.map`. -/
def mapWithIdx (f : Nat → α → β) : Nat → List α → List β
  | _, [] => []
  | i, x :: xs => f i x :: mapWithIdx f (i + 1) xs

/-- Indexed `Array.prototype.every((value, index) => ...)`. -/
def everyIdx (p : Nat → α → Bool) : Nat → List α → Bool
  | _, [] => true
  | i, x :: xs => p i x && everyIdx p (i + 1) xs

/-- Stable insertion of `x` into `l`: `x` is placed before the first
element `y` with `le x y`. -/
def insertSorted (le : α → α → Bool) (x : α) : List α → List α
  | [] => [x]
  | y :: ys => if le x y then x :: y :: ys else y :: insertSorted le x ys

/-- Stable comparator sort: the model of `Array.prototype.sort(cmp)`
(stable since ES2019), used with `le a b := cmp a b ≤ 0`. -/
def sortByLe (le : α → α → Bool) : List α → List α
  | [] => []
  | x :: xs => insertSorted le x (sortByLe le xs)

/-! ### Percent encoding (`encodeURIComponent` / `decodeURIComponent`)

These are JavaScript built-ins used by `encodePath` and by every
`fs.existsSync(decodeURIComponent(...))` call in the source; they are
modelled at the character level.  `encodeURIComponent` leaves the
unreserved characters `A-Z a-z 0-9 - _ . ! ~ * ' ( )` untouched and
percent-encodes the UTF-8 bytes of every other character, using uppercase
hexadecimal.  The decoder below decodes well-formed `%XX` UTF-8 sequences;
on malformed sequences (which `decodeURIComponent` rejects with a
`URIError`, and which never arise from the call sites modelled here) it
passes the raw characters through. -/

/-- Unreserved characters of `encodeURIComponent`. -/
def uriUnreserved (c : Char) : Bool :=
  (65 ≤ c.toNat && c.toNat ≤ 90) || (97 ≤ c.toNat && c.toNat ≤ 122) ||
  (48 ≤ c.toNat && c.toNat ≤ 57) ||
  c.toNat == 45 || c.toNat == 95 || c.toNat == 46 || c.toNat == 33 ||
  c.toNat == 126 || c.toNat == 42 || c.toNat == 39 || c.toNat == 40 ||
  c.toNat == 41

/-- Uppercase hexadecimal digit for `n < 16`. -/
def hexDigit (n : Nat) : Char :=
  if n < 10 then Char.ofNat (48 + n) else Char.ofNat (55 + n)

/-- The UTF-8 bytes of a code point, written with `/` and `%` (equal to
the usual shift-and-mask formulation). -/
def utf8Bytes (n : Nat) : List Nat :=
  if n < 128 then [n]
  else if n < 2048 then [192 + n / 64, 128 + n % 64]
  else if n < 65536 then [224 + n / 4096, 128 + n / 64 % 64, 128 + n % 64]
  else [240 + n / 262144, 128 + n / 4096 % 64, 128 + n / 64 % 64, 128 + n % 64]

/-- One percent-escaped byte, e.g. `%2F`. -/
def encByte (b : Nat) : List Char := ['%', hexDigit (b / 16), hexDigit (b % 16)]

/-- `encodeURIComponent` on a single character. -/
def encChar (c : Char) : List Char :=
  if uriUnreserved c then [c] else ((utf8Bytes c.toNat).map encByte).flatten

/-- `encodeURIComponent`. -/
def encURI (l : List Char) : List Char := (l.map encChar).flatten

/-- Value of a hexadecimal digit character. -/
def hexVal (c : Char) : Option Nat :=
  if 48 ≤ c.toNat && c.toNat ≤ 57 then some (c.toNat - 48)
  else if 65 ≤ c.toNat && c.toNat ≤ 70 then some (c.toNat - 55)
  else if 97 ≤ c.toNat && c.toNat ≤ 102 then some (c.toNat - 87)
  else none

/-- Tokenise a percent-encoded string: decoded escape bytes (`Sum.inr`)
and raw characters (`Sum.inl`).  On a `%` not followed by two hexadecimal
digits (where `decodeURIComponent` throws a `URIError`, unreachable from
the encoder's output) the raw `%` passes through. -/
def pctTokens : List Char → List (Char ⊕ Nat)
  | [] => []
  | '%' :: h1 :: h2 :: rest =>
    match hexVal h1, hexVal h2 with
    | some a, some b => Sum.inr (16 * a + b) :: pctTokens rest
    | _, _ => Sum.inl '%' :: pctTokens (h1 :: h2 :: rest)
  | c :: rest => Sum.inl c :: pctTokens rest

/-- Is `b` a UTF-8 continuation byte? -/
def contByte (b : Nat) : Bool := 128 ≤ b && b < 192

/-- Reassemble UTF-8 byte runs produced by `pctTokens` into characters,
as a state machine: `pending` continuation bytes are still expected for
the code point accumulated in `acc`.  Raw characters pass through; a
malformed byte run (where `decodeURIComponent` throws a `URIError`,
unreachable from the encoder's output) aborts decoding with a `'%'`
marker. -/
def utf8Assemble : Nat → Nat → List (Char ⊕ Nat) → List Char
  | 0, _, [] => []
  | _ + 1, _, [] => ['%']
  | 0, _, .inl c :: rest => c :: utf8Assemble 0 0 rest
  | _ + 1, _, .inl _ :: _ => ['%']
  | 0, _, .inr b :: rest =>
    if b < 128 then Char.ofNat b :: utf8Assemble 0 0 rest
    else if b < 192 then ['%']
    else if b < 224 then utf8Assemble 1 (b - 192) rest
    else if b < 240 then utf8Assemble 2 (b - 224) rest
    else utf8Assemble 3 (b - 240) rest
  | k + 1, acc, .inr b :: rest =>
    if contByte b then
      if k = 0 then Char.ofNat (acc * 64 + (b - 128)) :: utf8Assemble 0 0 rest
      else utf8Assemble k (acc * 64 + (b - 128)) rest
    else ['%']

/-- `decodeURIComponent` on a character list. -/
def decURIL (l : List Char) : List Char := utf8Assemble 0 0 (pctTokens l)

/-- `decodeURIComponent`. -/
def decodeURIComponentS (s : String) : String := ⟨decURIL s.data⟩

/-! ### Path splitting and joining -/

/-- The platform path separator `path.sep` (POSIX form). -/
def psep : Char := '/'

/-- `String.prototype.split(sep)`. -/
def splitSep (sep : Char) : List Char → List (List Char)
  | [] => [[]]
  | c :: rest =>
    if c = sep then [] :: splitSep sep rest
    else
      match splitSep sep rest with
      | [] => [[c]]
      | s :: ss => (c :: s) :: ss

/-- `Array.prototype.join(sep)`. -/
def joinSep (sep : Char) : List (List Char) → List Char
  | [] => []
  | [s] => s
  | s :: ss => s ++ sep :: joinSep sep ss

/-- `path.join(a, b)` for the simple relative components used by the
source (directory-entry names contain no separator and are not `..`, so
no normalisation occurs). -/
def pjoin (a b : String) : String := a ++ "/" ++ b

/-- `encodePath` from the source: split on the separator, keep a leading
drive-letter segment (ending in `:`) raw, percent-encode every other
segment, rejoin. -/
def encodePath (s : String) : String :=
  ⟨joinSep psep
    (mapWithIdx
      (fun i seg => if i == 0 && segEndsColon seg then seg else encURI seg)
      0 (splitSep psep s.data))⟩

/-- Segment-wise percent-decoding of an encoded path: decode every
segment except a leading drive-letter segment, rejoin with the same
separator.  Used to state the round-trip property of `encodePath`. -/
def decodePathSegs (s : String) : String :=
  ⟨joinSep psep
    (mapWithIdx
      (fun i seg => if i == 0 && segEndsColon seg then seg else decURIL seg)
      0 (splitSep psep s.data))⟩

/-! ### JSON values

The result of `jsonfile.readFileSync` on a successful parse.  Parsed
objects have unique keys (JSON.parse keeps the last duplicate), so an
association list models them. -/

inductive Json where
  | null : Json
  | bool (b : Bool) : Json
  | num (q : Rat) : Json
  | str (s : String) : Json
  | arr (elems : List Json) : Json
  | obj (fields : List (String × Json)) : Json

/-- JavaScript `typeof x === "object"` (true for objects, arrays and
`null`). -/
def Json.isObjectType : Json → Bool
  | .null | .arr _ | .obj _ => true
  | _ => false

/-- Usability of the parsed root value: the source rejects with
`configRaw === null || typeof configRaw !== "object"` (line 162), which
arrays pass. -/
def Json.objLike : Json → Bool
  | .arr _ | .obj _ => true
  | _ => false

/-- Is this JSON value `null`? -/
def Json.isNullB : Json → Bool
  | .null => true
  | _ => false

/-- JavaScript `k in x` on an object or array receiver (an array's own
keys are `length` and its canonical indices). -/
def Json.hasProp (j : Json) (k : String) : Bool :=
  match j with
  | .obj fields => fields.any fun p => p.1 == k
  | .arr elems =>
    k == "length" || (List.range elems.length).any fun i => toString i == k
  | _ => false

/-- JavaScript `k in x` in full: on a non-object receiver (including
`null`) it throws a `TypeError`, modelled as `Except.error ()`. -/
def Json.memProp (j : Json) (k : String) : Except Unit Bool :=
  match j with
  | .obj _ | .arr _ => .ok (j.hasProp k)
  | _ => .error ()

/-- Property read `x.k`; in the source it is only evaluated after a
successful `in` or `typeof` guard, so a total function with a `null`
default is faithful. -/
def Json.getProp (j : Json) (k : String) : Json :=
  match j with
  | .obj fields => (((fields.find? fun p => p.1 == k).map Prod.snd).getD .null)
  | .arr elems =>
    if k == "length" then .num elems.length
    else
      match (List.range elems.length).find? fun i => toString i == k with
      | some i => (elems.get? i).getD .null
      | none => .null
  | _ => .null

/-- `x.k` as an optional value (present property only). -/
def Json.look (j : Json) (k : String) : Option Json :=
  if j.hasProp k then some (j.getProp k) else none

/-- The element list of the guarded
`if ("k" in x && Array.isArray(x.k)) x.k.forEach(...)` pattern: the
array's elements when the field holds an array, nothing otherwise (the
`forEach` body never runs then). -/
def Json.elemsRaw (j : Json) (k : String) : List Json :=
  if j.hasProp k then
    match j.getProp k with
    | .arr elems => elems
    | _ => []
  else []

/-- The `("k" in x) && typeof x.k === "string"` overlay guard. -/
def Json.strField (j : Json) (k : String) : Option String :=
  if j.hasProp k then
    match j.getProp k with
    | .str s => some s
    | _ => none
  else none

/-- The `("k" in x) && typeof x.k === "number"` overlay guard. -/
def Json.numField (j : Json) (k : String) : Option Rat :=
  if j.hasProp k then
    match j.getProp k with
    | .num q => some q
    | _ => none
  else none

/-- The `("k" in x) && typeof x.k === "boolean"` overlay guard. -/
def Json.boolField (j : Json) (k : String) : Option Bool :=
  if j.hasProp k then
    match j.getProp k with
    | .bool b => some b
    | _ => none
  else none

/-- Modelled from the spec: `checkArrayType` lives in `shared/util`,
which is not among the sources; per §4.3 a tuple field is accepted
exactly when it is an array whose elements all have the expected
primitive type. -/
def checkNumArrayType : Json → Bool
  | .arr elems => elems.all fun e => match e with | .num _ => true | _ => false
  | _ => false

/-- Modelled from the spec: string-array variant of `checkArrayType`
(see `checkNumArrayType`). -/
def checkStrArrayType : Json → Bool
  | .arr elems => elems.all fun e => match e with | .str _ => true | _ => false
  | _ => false

/-- The `checkArrayType(x.k, "number") && x.k.length === 2` overlay guard
for coordinate pairs. -/
def Json.numPairField (j : Json) (k : String) : Option (Rat × Rat) :=
  if j.hasProp k then
    match j.getProp k with
    | .arr [.num a, .num b] => some (a, b)
    | _ => none
  else none

/-- The `checkArrayType(x.k, "number") && x.k.length === 3` overlay guard
for position triples. -/
def Json.numTripleField (j : Json) (k : String) : Option (Rat × Rat × Rat) :=
  if j.hasProp k then
    match j.getProp k with
    | .arr [.num a, .num b, .num c] => some (a, b, c)
    | _ => none
  else none

/-- Strings of a string-array field. -/
def Json.strs : Json → List String
  | .arr elems => elems.filterMap fun e => match e with | .str s => some s | _ => none
  | _ => []

/-! ### Rotation lists

The source checks
`Array.isArray(raw.rotations) && raw.rotations.every(rotation => typeof rotation === "object" && "axis" in rotation && (... x|y|z ...) && "degrees" in rotation && typeof rotation.degrees === "number")`
and, on success, stores the raw array.  `null` passes the `typeof` test,
so `"axis" in null` throws a `TypeError`. -/

/-- `axis` value check: one of `"x"`, `"y"`, `"z"`. -/
def axisOk : Json → Bool
  | .str s => s == "x" || s == "y" || s == "z"
  | _ => false

/-- The per-element rotation check (throws on `null` elements). -/
def rotationElemOk (j : Json) : Except Unit Bool := do
  if !j.isObjectType then return false
  let hasAxis ← j.memProp "axis"
  if !hasAxis then return false
  if !axisOk (j.getProp "axis") then return false
  let hasDeg ← j.memProp "degrees"
  if !hasDeg then return false
  match j.getProp "degrees" with
  | .num _ => return true
  | _ => return false

/-- Short-circuiting `Array.prototype.every` over the rotation check. -/
def rotationsEvery : List Json → Except Unit Bool
  | [] => .ok true
  | j :: rest => do
    let ok ← rotationElemOk j
    if ok then rotationsEvery rest else return false

/-- The whole guarded `config.<k> = raw.<k>` overlay for a rotation-list
field: returns the raw array when every element passes. -/
def rotationsField (j : Json) (k : String) : Except Unit (Option (List Json)) := do
  if j.hasProp k then
    match j.getProp k with
    | .arr elems =>
      let ok ← rotationsEvery elems
      return (if ok then some elems else none)
    | _ => return none
  else return none

/-- The `defaultOrigin` overlay guard (`auto`, `red` or `blue`). -/
def defaultOriginField (j : Json) : Option String :=
  match j.strField "defaultOrigin" with
  | some s => if s == "auto" || s == "red" || s == "blue" then some s else none
  | none => none

/-- The `driverStations` overlay guard: exactly six two-number positions
(lines 270-277); the raw array is stored. -/
def driverStationsField (j : Json) : Option (List Json) :=
  if j.hasProp "driverStations" then
    match j.getProp "driverStations" with
    | .arr elems =>
      if elems.length == 6 &&
          elems.all (fun p =>
            match p with
            | .arr l =>
              (l.all fun e => match e with | .num _ => true | _ => false) &&
                l.length == 2
            | _ => false) then
        some elems
      else none
    | _ => none
  else none

/-! ### Validated record types (`shared/AdvantageScopeAssets` shapes)

Raw rotation arrays, driver-station arrays and similar pass-through
values are stored as the raw JSON the source assigns. -/

/-- `Config2d`. -/
structure Config2d where
  name : String
  path : String
  topLeft : Rat × Rat
  bottomRight : Rat × Rat
  widthInches : Rat
  heightInches : Rat
  defaultOrigin : String
  sourceUrl : Option String := none

/-- `Config3dField_GamePiece`. -/
structure GamePiece where
  name : String
  rotations : List Json
  position : List Rat
  stagedObjects : List String

/-- `Config3dField`. -/
structure Config3dField where
  name : String
  path : String
  rotations : List Json
  widthInches : Rat
  heightInches : Rat
  defaultOrigin : String
  driverStations : List Json
  gamePieces : List GamePiece
  sourceUrl : Option String := none

/-- `Config3dRobot_Camera`. -/
structure RobotCamera where
  name : String
  rotations : List Json
  position : List Rat
  resolution : Rat × Rat
  fov : Rat

/-- `Config3dRobot_Component`. -/
structure RobotComponent where
  zeroedRotations : List Json
  zeroedPosition : List Rat

/-- `Config3dRobot`. -/
structure Config3dRobot where
  name : String
  path : String
  rotations : List Json
  position : Rat × Rat × Rat
  cameras : List RobotCamera
  components : List RobotComponent
  disableSimplification : Bool
  sourceUrl : Option String := none

/-- The three variants of `ConfigJoystick_Button` / `_Joystick` / `_Axis`
(the analog-stick variant is called `stick` here to avoid clashing with
the record name). -/
inductive JoystickComponent where
  | button (isYellow isEllipse : Bool) (centerPx sizePx : Rat × Rat)
      (sourceIndex : Rat) (sourcePov : Option String)
  | stick (isYellow : Bool) (centerPx : Rat × Rat) (radiusPx : Rat)
      (xSourceIndex : Rat) (xSourceInverted : Bool) (ySourceIndex : Rat)
      (ySourceInverted : Bool) (buttonSourceIndex : Option Rat)
  | axis (isYellow : Bool) (centerPx sizePx : Rat × Rat) (sourceIndex : Rat)
      (sourceRange : Rat × Rat)

/-- `ConfigJoystick`. -/
structure ConfigJoystick where
  name : String
  path : String
  components : List JoystickComponent

/-- Modelled from the spec: `DEFAULT_DRIVER_STATIONS` is defined in
`shared/AdvantageScopeAssets`, which is not among the sources; §3 only
requires exactly six positions and no claim depends on the values. -/
def DEFAULT_DRIVER_STATIONS : List Json :=
  List.replicate 6 (Json.arr [Json.num 0, Json.num 0])

/-! ### The four kind parsers (defensive per-field overlay) -/

/-- Lines 164-209: build a `Config2d` for candidate directory `dir` from
the parsed `config.json` value, starting from the all-defaults base and
overlaying each recognised, correctly-shaped field. -/
def parse2d (dir : String) (raw : Json) : Config2d :=
  { name := (raw.strField "name").getD ""
    path := encodePath (pjoin dir "image.png")
    topLeft := (raw.numPairField "topLeft").getD (-1, -1)
    bottomRight := (raw.numPairField "bottomRight").getD (-1, -1)
    widthInches := (raw.numField "widthInches").getD 0
    heightInches := (raw.numField "heightInches").getD 0
    defaultOrigin := (defaultOriginField raw).getD "auto"
    sourceUrl := raw.strField "sourceUrl" }

/-- Lines 279-314: build one game piece.  The leading
`"name" in gamePieceRaw` check throws on a non-object element; `null`
elements of its `rotations` array also throw. -/
def parseGamePiece (g : Json) : Except Unit GamePiece := do
  let _ ← g.memProp "name"
  let rots ← rotationsField g "rotations"
  pure
    { name := (g.strField "name").getD ""
      rotations := rots.getD []
      position :=
        ((g.numTripleField "position").map fun t => [t.1, t.2.1, t.2.2]).getD
          [0, 0, 0]
      stagedObjects :=
        if g.hasProp "stagedObjects" && checkStrArrayType (g.getProp "stagedObjects")
        then (g.getProp "stagedObjects").strs
        else [] }

/-- Lines 224-315: build a `Config3dField`. -/
def parseField3d (dir : String) (raw : Json) : Except Unit Config3dField := do
  let rots ← rotationsField raw "rotations"
  let gps ← (raw.elemsRaw "gamePieces").mapM parseGamePiece
  pure
    { name := (raw.strField "name").getD ""
      path := encodePath (pjoin dir "model.glb")
      rotations := rots.getD []
      widthInches := (raw.numField "widthInches").getD 0
      heightInches := (raw.numField "heightInches").getD 0
      defaultOrigin := (defaultOriginField raw).getD "auto"
      driverStations := (driverStationsField raw).getD DEFAULT_DRIVER_STATIONS
      gamePieces := gps
      sourceUrl := raw.strField "sourceUrl" }

/-- Lines 373-416: build one robot camera.  The leading
`"name" in cameraRaw` check throws on a non-object element. -/
def parseCamera (g : Json) : Except Unit RobotCamera := do
  let _ ← g.memProp "name"
  let rots ← rotationsField g "rotations"
  pure
    { name := (g.strField "name").getD ""
      rotations := rots.getD []
      position :=
        ((g.numTripleField "position").map fun t => [t.1, t.2.1, t.2.2]).getD
          [0, 0, 0]
      resolution := (g.numPairField "resolution").getD (200, 100)
      fov := (g.numField "fov").getD 90 }

/-- Lines 419-446: build one robot component.  The leading
`"zeroedRotations" in componentRaw` check throws on a non-object
element. -/
def parseComponent (g : Json) : Except Unit RobotComponent := do
  let _ ← g.memProp "zeroedRotations"
  let rots ← rotationsField g "zeroedRotations"
  pure
    { zeroedRotations := rots.getD []
      zeroedPosition :=
        ((g.numTripleField "zeroedPosition").map fun t => [t.1, t.2.1, t.2.2]).getD
          [0, 0, 0] }

/-- Lines 328-447: build a `Config3dRobot` (the debug `console.log` for a
robot named `"Preseto"`, lines 345-347, has no behavioural effect and is
not modelled). -/
def parseRobot (dir : String) (raw : Json) : Except Unit Config3dRobot := do
  let rots ← rotationsField raw "rotations"
  let cams ← (raw.elemsRaw "cameras").mapM parseCamera
  let comps ← (raw.elemsRaw "components").mapM parseComponent
  pure
    { name := (raw.strField "name").getD ""
      path := encodePath (pjoin dir "model.glb")
      rotations := rots.getD []
      position := (raw.numTripleField "position").getD (0, 0, 0)
      cameras := cams
      components := comps
      disableSimplification := (raw.boolField "disableSimplification").getD false
      sourceUrl := raw.strField "sourceUrl" }

/-- The `sourcePov` overlay guard. -/
def povField (g : Json) : Option String :=
  match g.strField "sourcePov" with
  | some s =>
    if s == "up" || s == "right" || s == "down" || s == "left" then some s
    else none
  | none => none

/-- Lines 470-583: build one joystick component.  The leading
`"isYellow" in componentRaw` check throws on a non-object element; an
absent or unrecognised `type` drops the element (no value pushed). -/
def parseJoyComponent (g : Json) : Except Unit (Option JoystickComponent) := do
  let _ ← g.memProp "isYellow"
  let isYellow := (g.boolField "isYellow").getD false
  let centerPx := (g.numPairField "centerPx").getD (0, 0)
  if g.hasProp "type" then
    match g.getProp "type" with
    | .str t =>
      if t == "button" then
        return some (.button isYellow ((g.boolField "isEllipse").getD false)
          centerPx ((g.numPairField "sizePx").getD (0, 0))
          ((g.numField "sourceIndex").getD (-1)) (povField g))
      else if t == "joystick" then
        return some (.stick isYellow centerPx ((g.numField "radiusPx").getD 0)
          ((g.numField "xSourceIndex").getD (-1))
          ((g.boolField "xSourceInverted").getD false)
          ((g.numField "ySourceIndex").getD (-1))
          ((g.boolField "ySourceInverted").getD false)
          (g.numField "buttonSourceIndex"))
      else if t == "axis" then
        return some (.axis isYellow centerPx
          ((g.numPairField "sizePx").getD (0, 0))
          ((g.numField "sourceIndex").getD (-1))
          ((g.numPairField "sourceRange").getD (-1, 1)))
      else return none
    | _ => return none
  else return none

/-- Lines 459-584: build a `ConfigJoystick`. -/
def parseJoystick (dir : String) (raw : Json) : Except Unit ConfigJoystick := do
  let l ← (raw.elemsRaw "components").mapM parseJoyComponent
  let comps := l.filterMap id
  pure
    { name := (raw.strField "name").getD ""
      path := encodePath (pjoin dir "image.png")
      components := comps }

/-! ### Filesystem model and admission gates -/

/-- The filesystem operations used per candidate: `fs.existsSync` and
`jsonfile.readFileSync` (whose failure to read or parse is the `.error`
case caught by the source's `try`/`catch`). -/
structure FS where
  fileExists : String → Bool
  readJson : String → Except Unit Json

/-- The auxiliary model path
`decodeURIComponent(config.path).slice(0, -4) + "_" + index + ".glb"`
(lines 322, 453). -/
def auxPath (primary : String) (i : Nat) : String :=
  primary.dropRight 4 ++ "_" ++ toString i ++ ".glb"

/-- Lines 210-219: the 2D-field admission gate. -/
def admit2d (fs : FS) (c : Config2d) : Bool :=
  decide (0 < c.name.length) &&
  decide (0 ≤ c.topLeft.1) && decide (0 ≤ c.topLeft.2) &&
  decide (0 ≤ c.bottomRight.1) && decide (0 ≤ c.bottomRight.2) &&
  decide (0 < c.widthInches) && decide (0 < c.heightInches) &&
  fs.fileExists (decodeURIComponentS c.path)

/-- Lines 316-324: the 3D-field admission gate. -/
def admitField3d (fs : FS) (c : Config3dField) : Bool :=
  decide (0 < c.name.length) &&
  decide (0 < c.widthInches) && decide (0 < c.heightInches) &&
  fs.fileExists (decodeURIComponentS c.path) &&
  everyIdx (fun i _ => fs.fileExists (auxPath (decodeURIComponentS c.path) i))
    0 c.gamePieces

/-- Lines 448-455: the robot admission gate. -/
def admitRobot (fs : FS) (c : Config3dRobot) : Bool :=
  decide (0 < c.name.length) &&
  c.cameras.all (fun cam => decide (0 < cam.name.length)) &&
  fs.fileExists (decodeURIComponentS c.path) &&
  everyIdx (fun i _ => fs.fileExists (auxPath (decodeURIComponentS c.path) i))
    0 c.components

/-- Lines 587-596: the per-component joystick check. -/
def joyComponentOk : JoystickComponent → Bool
  | .button _ _ _ sizePx sourceIndex _ =>
    decide (0 < sizePx.1) && decide (0 < sizePx.2) && decide (0 ≤ sourceIndex)
  | .stick _ _ radiusPx xSourceIndex _ ySourceIndex _ _ =>
    decide (0 < radiusPx) && decide (0 ≤ xSourceIndex) && decide (0 ≤ ySourceIndex)
  | .axis _ _ sizePx sourceIndex _ =>
    decide (0 < sizePx.1) && decide (0 < sizePx.2) && decide (0 ≤ sourceIndex)

/-- Lines 585-598: the joystick admission gate. -/
def admitJoystick (fs : FS) (c : ConfigJoystick) : Bool :=
  decide (0 < c.name.length) && c.components.all joyComponentOk &&
  fs.fileExists (decodeURIComponentS c.path)

/-! ### The load pipeline -/

/-- An admitted record of one of the four kinds. -/
inductive KindRec where
  | f2 (c : Config2d)
  | f3 (c : Config3dField)
  | rb (c : Config3dRobot)
  | js (c : ConfigJoystick)

/-- `AdvantageScopeAssets`, the result shape. -/
structure Assets where
  field2ds : List Config2d
  field3ds : List Config3dField
  robots : List Config3dRobot
  joysticks : List ConfigJoystick
  loadFailures : List String

/-- The initial accumulator (lines 134-140). -/
def emptyAssets : Assets := ⟨[], [], [], [], []⟩

/-- Lines 149-602, for one scanned candidate `nm` under `parent`:
classification by name, `config.json` lookup, kind-specific parse and
admission.  `.ok none`: the candidate stays a failure; `.ok (some r)`:
record `r` is admitted; `.error ()`: an uncaught `TypeError`. -/
def candidateOutcome (fs : FS) (parent nm : String) : Except Unit (Option KindRec) := do
  let dir := pjoin parent nm
  let configPath := pjoin dir "config.json"
  if !fs.fileExists configPath then return none
  match fs.readJson configPath with
  | .error _ => return none
  | .ok raw =>
    if !raw.objLike then return none
    if strStarts nm "Field2d_" then
      let c := parse2d dir raw
      return (if admit2d fs c then some (.f2 c) else none)
    else if strStarts nm "Field3d_" then
      let c ← parseField3d dir raw
      return (if admitField3d fs c then some (.f3 c) else none)
    else if strStarts nm "Robot_" then
      let c ← parseRobot dir raw
      return (if admitRobot fs c then some (.rb c) else none)
    else if strStarts nm "Joystick_" then
      let c ← parseJoystick dir raw
      return (if admitJoystick fs c then some (.js c) else none)
    else return none

/-- Line 148: `assets.loadFailures.push(object.name)`. -/
def pushFailure (st : Assets) (nm : String) : Assets :=
  { st with loadFailures := st.loadFailures ++ [nm] }

/-- Push an admitted record and splice the candidate's name out of the
failure list (lines 220-221, 325-326, 456-457, 599-600). -/
def addRecord (st : Assets) (nm : String) : KindRec → Assets
  | .f2 c =>
    { st with field2ds := st.field2ds ++ [c],
              loadFailures := removeFirst st.loadFailures nm }
  | .f3 c =>
    { st with field3ds := st.field3ds ++ [c],
              loadFailures := removeFirst st.loadFailures nm }
  | .rb c =>
    { st with robots := st.robots ++ [c],
              loadFailures := removeFirst st.loadFailures nm }
  | .js c =>
    { st with joysticks := st.joysticks ++ [c],
              loadFailures := removeFirst st.loadFailures nm }

/-- One iteration of the candidate loop: assume failure (line 148), then
apply the candidate's outcome. -/
def processCandidate (fs : FS) (st : Assets) (c : String × String) :
    Except Unit Assets :=
  match candidateOutcome fs c.1 c.2 with
  | .error e => .error e
  | .ok none => .ok (pushFailure st c.2)
  | .ok (some r) => .ok (addRecord (pushFailure st c.2) c.2 r)

/-- A directory entry as returned by
`fs.readdirSync(parent, {withFileTypes: true})`. -/
structure DirEnt where
  name : String
  isDir : Bool

/-- One source root (the user, automatic or bundled asset directory)
together with its directory listing. -/
structure SourceRoot where
  path : String
  entries : List DirEnt

/-- Line 145: entries are sorted in inverse (descending) name order so
that newer versions take priority. -/
def entLe (a b : DirEnt) : Bool :=
  decide ((if strLt b.name a.name then (-1 : Int)
           else if strLt a.name b.name then 1 else 0) ≤ 0)

/-- Lines 144-147: the scanned candidates of one root, in visit order
(descending name order, directories only, hidden entries dropped), paired
with the root's path. -/
def scanRoot (r : SourceRoot) : List (String × String) :=
  ((sortByLe entLe r.entries).filter fun e =>
    e.isDir && !(strStarts e.name ".")).map fun e => (r.path, e.name)

/-- Line 143: roots are visited highest-priority first. -/
def scanAll (roots : List SourceRoot) : List (String × String) :=
  (roots.map scanRoot).flatten

/-- Lines 614-633: keep only the first record of each display name. -/
def dedupBy (f : α → String) (l : List α) : List α :=
  l.foldl
    (fun acc x =>
      if (acc.find? fun y => f y == f x).isSome then acc else acc ++ [x])
    []

/-- Lines 606-634: per-kind deduplication; the failure list passes
through. -/
def dedupAssets (a : Assets) : Assets :=
  { field2ds := dedupBy Config2d.name a.field2ds
    field3ds := dedupBy Config3dField.name a.field3ds
    robots := dedupBy Config3dRobot.name a.robots
    joysticks := dedupBy ConfigJoystick.name a.joysticks
    loadFailures := a.loadFailures }

/-- Lines 639-643: the `field2ds` comparator (descending by name, with a
record named exactly `"Evergreen"` forced to the end). -/
def field2dCmp (a b : Config2d) : Int :=
  if a.name == "Evergreen" then 1
  else if b.name == "Evergreen" then -1
  else if strLt b.name a.name then -1
  else if strLt a.name b.name then 1
  else 0

/-- Line 646 and line 652: plain descending-name comparator. -/
def nameDescCmp (x y : String) : Int :=
  if strLt y x then -1 else if strLt x y then 1 else 0

/-- Digit-run-aware comparison modelling
`a.localeCompare(b, undefined, {numeric: true})` (lines 649, 655); a
fuel-bounded recursion (the fuel of the caller always suffices).  No
claim depends on this collation — only on the sorts being
permutations. -/
def natOrdCmpF : Nat → List Char → List Char → Int
  | 0, _, _ => 0
  | _ + 1, [], [] => 0
  | _ + 1, [], _ :: _ => -1
  | _ + 1, _ :: _, [] => 1
  | fuel + 1, a :: as, b :: bs =>
    let aDig := 48 ≤ a.toNat && a.toNat ≤ 57
    let bDig := 48 ≤ b.toNat && b.toNat ≤ 57
    if aDig && bDig then
      let sa := (a :: as).takeWhile fun c => 48 ≤ c.toNat && c.toNat ≤ 57
      let sb := (b :: bs).takeWhile fun c => 48 ≤ c.toNat && c.toNat ≤ 57
      let va := sa.foldl (fun acc c => acc * 10 + (c.toNat - 48)) (0 : Nat)
      let vb := sb.foldl (fun acc c => acc * 10 + (c.toNat - 48)) (0 : Nat)
      if va < vb then -1
      else if vb < va then 1
      else natOrdCmpF fuel
        ((a :: as).dropWhile fun c => 48 ≤ c.toNat && c.toNat ≤ 57)
        ((b :: bs).dropWhile fun c => 48 ≤ c.toNat && c.toNat ≤ 57)
    else if a.toNat < b.toNat then -1
    else if b.toNat < a.toNat then 1
    else natOrdCmpF fuel as bs

/-- See `natOrdCmpF`. -/
def natOrdCmp (x y : String) : Int := natOrdCmpF (x.data.length + 1) x.data y.data

/-- Lines 636-656: the kind-specific sorts. -/
def sortAssets (a : Assets) : Assets :=
  { field2ds := sortByLe (fun x y => decide (field2dCmp x y ≤ 0)) a.field2ds
    field3ds :=
      sortByLe (fun x y => decide (nameDescCmp x.name y.name ≤ 0)) a.field3ds
    robots := sortByLe (fun x y => decide (natOrdCmp x.name y.name ≤ 0)) a.robots
    joysticks :=
      sortByLe (fun x y => decide (nameDescCmp x.name y.name ≤ 0)) a.joysticks
    loadFailures := sortByLe (fun x y => decide (natOrdCmp x y ≤ 0)) a.loadFailures }

/-- `loadAssets` (lines 133-658) over the modelled filesystem.  `roots`
is the priority-ordered list of source roots with their listings
(`[getUserAssetsPath(), AUTO_ASSETS, BUNDLED_ASSETS]`, highest priority
first).  `.error ()` is an uncaught exception aborting the whole call. -/
def loadAssetsE (fs : FS) (roots : List SourceRoot) : Except Unit Assets := do
  let raw ← (scanAll roots).foldlM (processCandidate fs) emptyAssets
  return sortAssets (dedupAssets raw)

/-! ### Derived per-candidate views used by the theorems -/

/-- The 2D-field record a candidate contributes, if any. -/
def outcome2d (fs : FS) (c : String × String) : Option Config2d :=
  match candidateOutcome fs c.1 c.2 with
  | .ok (some (.f2 cfg)) => some cfg
  | _ => none

/-- The 3D-field record a candidate contributes, if any. -/
def outcome3d (fs : FS) (c : String × String) : Option Config3dField :=
  match candidateOutcome fs c.1 c.2 with
  | .ok (some (.f3 cfg)) => some cfg
  | _ => none

/-- The robot record a candidate contributes, if any. -/
def outcomeRobot (fs : FS) (c : String × String) : Option Config3dRobot :=
  match candidateOutcome fs c.1 c.2 with
  | .ok (some (.rb cfg)) => some cfg
  | _ => none

/-- The joystick record a candidate contributes, if any. -/
def outcomeJoystick (fs : FS) (c : String × String) : Option ConfigJoystick :=
  match candidateOutcome fs c.1 c.2 with
  | .ok (some (.js cfg)) => some cfg
  | _ => none

/-- All admitted 2D-field records of a candidate list, in scan order. -/
def collect2d (fs : FS) (cs : List (String × String)) : List Config2d :=
  cs.filterMap (outcome2d fs)

/-- All admitted 3D-field records of a candidate list, in scan order. -/
def collect3d (fs : FS) (cs : List (String × String)) : List Config3dField :=
  cs.filterMap (outcome3d fs)

/-- All admitted robot records of a candidate list, in scan order. -/
def collectRobot (fs : FS) (cs : List (String × String)) : List Config3dRobot :=
  cs.filterMap (outcomeRobot fs)

/-- All admitted joystick records of a candidate list, in scan order. -/
def collectJoystick (fs : FS) (cs : List (String × String)) : List ConfigJoystick :=
  cs.filterMap (outcomeJoystick fs)

/-- Does this candidate stay in the failure list (no exception, no
record)? -/
def staysFailure (fs : FS) (c : String × String) : Bool :=
  match candidateOutcome fs c.1 c.2 with
  | .ok none => true
  | _ => false

/-! ### A sufficient no-throw condition on parsed configs (claim C4) -/

/-- No `null` element in a would-be rotation array. -/
def rotValSafe : Option Json → Bool
  | some (.arr elems) => elems.all fun e => !e.isNullB
  | _ => true

/-- A nested record element that cannot make the `in` operator throw:
an object or array whose own rotation lists contain no `null`. -/
def elemSafe (e : Json) : Bool :=
  e.objLike && rotValSafe (e.look "rotations") &&
    rotValSafe (e.look "zeroedRotations")

/-- All elements of a would-be sub-record array are safe. -/
def elemsSafe : Option Json → Bool
  | some (.arr elems) => elems.all elemSafe
  | _ => true

/-- Sufficient condition for the kind parsers not to throw on a parsed
`config.json` value: no `null` rotation element and no non-object element
in the `gamePieces` / `cameras` / `components` arrays. -/
def configSafe (j : Json) : Bool :=
  rotValSafe (j.look "rotations") && elemsSafe (j.look "gamePieces") &&
  elemsSafe (j.look "cameras") && elemsSafe (j.look "components")

/-- Does the name match one of the four kind prefixes (lines 149-152)? -/
def kindPrefixed (nm : String) : Bool :=
  strStarts nm "Field2d_" || strStarts nm "Field3d_" ||
  strStarts nm "Robot_" || strStarts nm "Joystick_"

/-- Membership of an admitted record in the collection of its kind. -/
def Assets.hasRec (a : Assets) : KindRec → Prop
  | .f2 c => c ∈ a.field2ds
  | .f3 c => c ∈ a.field3ds
  | .rb c => c ∈ a.robots
  | .js c => c ∈ a.joysticks

/-- Did reading this path either fail or produce a `configSafe` value? -/
def readSafe (fs : FS) (path : String) : Bool :=
  match fs.readJson path with
  | .ok j => configSafe j
  | .error _ => true

/-- Reference first-occurrence filter used to characterise `dedupBy`:
keep an element unless its name was already seen. -/
def keepFirstBy (f : α → String) (seen : List String) : List α → List α
  | [] => []
  | x :: xs =>
    if seen.contains (f x) then keepFirstBy f seen xs
    else x :: keepFirstBy f (seen ++ [f x]) xs

/-- Extract the value of a successful run (used only to name concrete
evaluation results). -/
def getOk (e : Except Unit α) (dflt : α) : α :=
  match e with
  | .ok a => a
  | .error _ => dflt

/-! ### Concrete scenarios used by counterexamples and witnesses -/

/-- A fully valid 2D-field `config.json` with the given display name. -/
def cfg2dJson (nm : String) : Json :=
  Json.obj [("name", .str nm), ("topLeft", .arr [.num 0, .num 0]),
    ("bottomRight", .arr [.num 1, .num 1]), ("widthInches", .num 1),
    ("heightInches", .num 1)]

/-- Scenario A: one root with three valid 2D fields named `Alpha`,
`Evergreen` and `Zeta`. -/
def fsA : FS :=
  { fileExists := fun s =>
      ["u/Field2d_Alpha/config.json", "u/Field2d_Alpha/image.png",
       "u/Field2d_Evergreen/config.json", "u/Field2d_Evergreen/image.png",
       "u/Field2d_Zeta/config.json", "u/Field2d_Zeta/image.png"].contains s
    readJson := fun s =>
      if s == "u/Field2d_Alpha/config.json" then .ok (cfg2dJson "Alpha")
      else if s == "u/Field2d_Evergreen/config.json" then .ok (cfg2dJson "Evergreen")
      else if s == "u/Field2d_Zeta/config.json" then .ok (cfg2dJson "Zeta")
      else .error () }

/-- Scenario A roots. -/
def rootsA : List SourceRoot :=
  [{ path := "u",
     entries := [⟨"Field2d_Alpha", true⟩, ⟨"Field2d_Evergreen", true⟩,
       ⟨"Field2d_Zeta", true⟩] }]

/-- Scenario A result. -/
def assetsA : Assets := getOk (loadAssetsE fsA rootsA) emptyAssets

/-- Scenario B: the directory name `Field2d_X` exists under both roots;
under `r1` it has no `config.json` (fails), under `r2` it is fully
valid. -/
def fsB : FS :=
  { fileExists := fun s =>
      ["r2/Field2d_X/config.json", "r2/Field2d_X/image.png"].contains s
    readJson := fun s =>
      if s == "r2/Field2d_X/config.json" then .ok (cfg2dJson "X")
      else .error () }

/-- Scenario B roots (priority order `r1` then `r2`). -/
def rootsB : List SourceRoot :=
  [⟨"r1", [⟨"Field2d_X", true⟩]⟩, ⟨"r2", [⟨"Field2d_X", true⟩]⟩]

/-- Scenario B result. -/
def assetsB : Assets := getOk (loadAssetsE fsB rootsB) emptyAssets

/-- Scenario C: one root containing a single non-hidden directory whose
name matches no kind prefix. -/
def fsC : FS := { fileExists := fun _ => false, readJson := fun _ => .error () }

/-- Scenario C roots. -/
def rootsC : List SourceRoot := [⟨"u", [⟨"Stuff", true⟩]⟩]

/-- Scenario C result. -/
def assetsC : Assets := getOk (loadAssetsE fsC rootsC) emptyAssets

/-- Scenario D: a 3D-field candidate whose `config.json` has a numeric
(non-object) element in `gamePieces`. -/
def fsD : FS :=
  { fileExists := fun s => s == "u/Field3d_Bad/config.json"
    readJson := fun s =>
      if s == "u/Field3d_Bad/config.json" then
        .ok (Json.obj [("gamePieces", .arr [.num 5])])
      else .error () }

/-- Scenario D roots. -/
def rootsD : List SourceRoot := [⟨"u", [⟨"Field3d_Bad", true⟩]⟩]

/-- Scenario E: a valid 3D field with one game piece and a valid robot
with one component, with both auxiliary `_0.glb` files present. -/
def fsE : FS :=
  { fileExists := fun s =>
      ["u/Field3d_F/config.json", "u/Field3d_F/model.glb",
       "u/Field3d_F/model_0.glb", "u/Robot_R/config.json",
       "u/Robot_R/model.glb", "u/Robot_R/model_0.glb"].contains s
    readJson := fun s =>
      if s == "u/Field3d_F/config.json" then
        .ok (Json.obj [("name", .str "F"), ("widthInches", .num 1),
          ("heightInches", .num 1), ("gamePieces", .arr [Json.obj []])])
      else if s == "u/Robot_R/config.json" then
        .ok (Json.obj [("name", .str "R"), ("components", .arr [Json.obj []])])
      else .error () }

/-- Scenario E parsed 3D-field record. -/
def cfgE3d : Config3dField :=
  getOk (parseField3d "u/Field3d_F" (getOk (fsE.readJson "u/Field3d_F/config.json") .null))
    { name := "", path := "", rotations := [], widthInches := 0,
      heightInches := 0, defaultOrigin := "auto", driverStations := [],
      gamePieces := [] }

/-- Scenario E parsed robot record. -/
def cfgERobot : Config3dRobot :=
  getOk (parseRobot "u/Robot_R" (getOk (fsE.readJson "u/Robot_R/config.json") .null))
    { name := "", path := "", rotations := [], position := (0, 0, 0),
      cameras := [], components := [], disableSimplification := false }

/-- Scenario G: a joystick whose only component is a `button` with
`sizePx [0, 5]` and every other field valid. -/
def fsG : FS :=
  { fileExists := fun s =>
      ["u/Joystick_G/config.json", "u/Joystick_G/image.png"].contains s
    readJson := fun s =>
      if s == "u/Joystick_G/config.json" then
        .ok (Json.obj [("name", .str "G"),
          ("components", .arr [Json.obj [("type", .str "button"),
            ("sizePx", .arr [.num 0, .num 5]), ("sourceIndex", .num 0)]])])
      else .error () }

/-- Scenario G parsed joystick record. -/
def cfgGJoy : ConfigJoystick :=
  getOk (parseJoystick "u/Joystick_G" (getOk (fsG.readJson "u/Joystick_G/config.json") .null))
    { name := "", path := "", components := [] }

/-- Scenario H: a joystick, a 3D field and a robot whose coerced
component and game-piece lists are empty, with only the primary
image/model files present (no auxiliaries). -/
def fsH : FS :=
  { fileExists := fun s =>
      ["u/Joystick_E/config.json", "u/Joystick_E/image.png",
       "u/Field3d_E/config.json", "u/Field3d_E/model.glb",
       "u/Robot_E/config.json", "u/Robot_E/model.glb"].contains s
    readJson := fun s =>
      if s == "u/Joystick_E/config.json" then .ok (Json.obj [("name", .str "JE")])
      else if s == "u/Field3d_E/config.json" then
        .ok (Json.obj [("name", .str "FE"), ("widthInches", .num 1),
          ("heightInches", .num 1)])
      else if s == "u/Robot_E/config.json" then .ok (Json.obj [("name", .str "RE")])
      else .error () }

/-- Scenario H parsed joystick record. -/
def cfgHJoy : ConfigJoystick :=
  getOk (parseJoystick "u/Joystick_E" (getOk (fsH.readJson "u/Joystick_E/config.json") .null))
    { name := "", path := "", components := [] }

/-- Scenario H parsed 3D-field record. -/
def cfgH3d : Config3dField :=
  getOk (parseField3d "u/Field3d_E" (getOk (fsH.readJson "u/Field3d_E/config.json") .null))
    { name := "", path := "", rotations := [], widthInches := 0,
      heightInches := 0, defaultOrigin := "auto", driverStations := [],
      gamePieces := [] }

/-- Scenario H parsed robot record. -/
def cfgHRobot : Config3dRobot :=
  getOk (parseRobot "u/Robot_E" (getOk (fsH.readJson "u/Robot_E/config.json") .null))
    { name := "", path := "", rotations := [], position := (0, 0, 0),
      cameras := [], components := [], disableSimplification := false }

/-- Scenario I: two roots, each with a valid 2D field, under different
directory names but with the same display name `X`. -/
def fsI : FS :=
  { fileExists := fun s =>
      ["r1/Field2d_A/config.json", "r1/Field2d_A/image.png",
       "r2/Field2d_B/config.json", "r2/Field2d_B/image.png"].contains s
    readJson := fun s =>
      if s == "r1/Field2d_A/config.json" then .ok (cfg2dJson "X")
      else if s == "r2/Field2d_B/config.json" then .ok (cfg2dJson "X")
      else .error () }

/-- Scenario I roots (priority order `r1` then `r2`). -/
def rootsI : List SourceRoot :=
  [⟨"r1", [⟨"Field2d_A", true⟩]⟩, ⟨"r2", [⟨"Field2d_B", true⟩]⟩]

/-- Scenario I result. -/
def assetsI : Assets := getOk (loadAssetsE fsI rootsI) emptyAssets

/-- Scenario A 2D record named `Alpha` (used to instantiate theorems). -/
def cfgAlpha : Config2d := parse2d "u/Field2d_Alpha" (cfg2dJson "Alpha")

/-- Scenario E with the two auxiliary `_0.glb` files removed. -/
def fsE2 : FS :=
  { fileExists := fun s =>
      ["u/Field3d_F/config.json", "u/Field3d_F/model.glb",
       "u/Robot_R/config.json", "u/Robot_R/model.glb"].contains s
    readJson := fsE.readJson }

/-! ## Theorems -/

/-! ### Generic lemmas about the list utilities -/

theorem insertSorted_perm (le : α → α → Bool) (x : α) (l : List α) :
    (insertSorted le x l).Perm (x :: l) := by
  induction l with
  | nil => simp [insertSorted]
  | cons y ys ih =>
    simp only [insertSorted]
    split
    · exact List.Perm.refl _
    · exact (ih.cons y).trans (List.Perm.swap x y ys)

theorem sortByLe_perm (le : α → α → Bool) (l : List α) :
    (sortByLe le l).Perm l := by
  induction l with
  | nil => simp [sortByLe]
  | cons x xs ih =>
    exact (insertSorted_perm le x (sortByLe le xs)).trans (ih.cons x)

theorem mem_sortByLe (le : α → α → Bool) (l : List α) (x : α) :
    x ∈ sortByLe le l ↔ x ∈ l :=
  (sortByLe_perm le l).mem_iff

theorem count_sortByLe [DecidableEq α] (le : α → α → Bool) (l : List α) (x : α) :
    (sortByLe le l).count x = l.count x :=
  (sortByLe_perm le l).count_eq x

theorem everyIdx_eq_true_iff (p : Nat → α → Bool) (k : Nat) (l : List α) :
    everyIdx p k l = true ↔ ∀ i (h : i < l.length), p (k + i) (l.get ⟨i, h⟩) = true := by
  induction l generalizing k with
  | nil => simp [everyIdx]
  | cons x xs ih =>
    simp only [everyIdx, Bool.and_eq_true, ih]
    constructor
    · rintro ⟨hx, hrest⟩ i hi
      match i with
      | 0 => simpa using hx
      | j + 1 =>
        have := hrest j (by simpa using Nat.lt_of_succ_lt_succ hi)
        simpa [Nat.add_assoc, Nat.add_comm 1 j] using this
    · intro h
      refine ⟨by simpa using h 0 (Nat.succ_pos _), fun i hi => ?_⟩
      have := h (i + 1) (Nat.succ_lt_succ hi)
      simpa [Nat.add_assoc, Nat.add_comm 1 i] using this

theorem pairwise_insertSorted (le : α → α → Bool) (x : α) (l : List α)
    (hl : l.Pairwise fun a b => le a b = true)
    (htot : ∀ y ∈ l, le x y = true ∨ le y x = true)
    (htr : ∀ b c, b ∈ l → c ∈ l → le x b = true → le b c = true → le x c = true) :
    (insertSorted le x l).Pairwise fun a b => le a b = true := by
  induction l with
  | nil => simp [insertSorted]
  | cons y ys ih =>
    rcases List.pairwise_cons.mp hl with ⟨hy, hys⟩
    simp only [insertSorted]
    split
    case isTrue hxy =>
      refine List.pairwise_cons.mpr ⟨?_, hl⟩
      intro z hz
      rcases List.mem_cons.mp hz with rfl | hz
      · exact hxy
      · exact htr y z (List.mem_cons_self _ _) (List.mem_cons_of_mem _ hz) hxy (hy z hz)
    case isFalse hxy =>
      have hyx : le y x = true :=
        (htot y (List.mem_cons_self _ _)).resolve_left (by simpa using hxy)
      refine List.pairwise_cons.mpr ⟨?_, ?_⟩
      · intro z hz
        rcases List.mem_cons.mp ((insertSorted_perm le x ys).mem_iff.mp hz) with rfl | hz
        · exact hyx
        · exact hy z hz
      · refine ih hys (fun y' hy' => htot y' (List.mem_cons_of_mem _ hy'))
          (fun b c hb hc => htr b c (List.mem_cons_of_mem _ hb) (List.mem_cons_of_mem _ hc))

theorem pairwise_sortByLe (le : α → α → Bool) (l : List α) (hnd : l.Nodup)
    (H : ∀ a ∈ l, ∀ b ∈ l, a ≠ b → le a b = true ∨ le b a = true)
    (T : ∀ a b c, a ∈ l → b ∈ l → c ∈ l →
      le a b = true → le b c = true → le a c = true) :
    (sortByLe le l).Pairwise fun a b => le a b = true := by
  induction l with
  | nil => simp [sortByLe]
  | cons x xs ih =>
    rcases List.nodup_cons.mp hnd with ⟨hx, hxs⟩
    simp only [sortByLe]
    refine pairwise_insertSorted le x (sortByLe le xs)
      (ih hxs
        (fun a ha b hb hab => H a (List.mem_cons_of_mem _ ha) b (List.mem_cons_of_mem _ hb) hab)
        (fun a b c ha hb hc => T a b c (List.mem_cons_of_mem _ ha)
          (List.mem_cons_of_mem _ hb) (List.mem_cons_of_mem _ hc)))
      ?_ ?_
    · intro y hy
      have hymem : y ∈ xs := (sortByLe_perm le xs).mem_iff.mp hy
      exact H x (List.mem_cons_self _ _) y (List.mem_cons_of_mem _ hymem)
        (fun e => hx (e ▸ hymem))
    · intro b c hb hc hxb hbc
      exact T x b c (List.mem_cons_self _ _)
        (List.mem_cons_of_mem _ ((sortByLe_perm le xs).mem_iff.mp hb))
        (List.mem_cons_of_mem _ ((sortByLe_perm le xs).mem_iff.mp hc)) hxb hbc

theorem dedupBy_eq_keepFirstBy (f : α → String) (l : List α) (acc : List α) :
    List.foldl
      (fun acc x =>
        if (acc.find? fun y => f y == f x).isSome then acc else acc ++ [x])
      acc l = acc ++ keepFirstBy f (acc.map f) l := by
  induction l generalizing acc with
  | nil => simp [keepFirstBy]
  | cons x xs ih =>
    have hiff : ((acc.find? fun y => f y == f x).isSome = true) ↔
        ((acc.map f).contains (f x) = true) := by
      rw [List.find?_isSome, List.elem_iff]
      constructor
      · rintro ⟨y, hy, hbeq⟩
        exact (beq_iff_eq.mp hbeq) ▸ List.mem_map_of_mem f hy
      · intro hmem
        rcases List.mem_map.mp hmem with ⟨y, hy, hfy⟩
        exact ⟨y, hy, beq_iff_eq.mpr hfy⟩
    simp only [List.foldl_cons, keepFirstBy]
    by_cases hc : (acc.map f).contains (f x) = true
    · rw [if_pos (hiff.mpr hc), if_pos hc, ih]
    · rw [if_neg (fun h => hc (hiff.mp h)), if_neg hc, ih]
      simp [keepFirstBy]

theorem mem_keepFirstBy (f : α → String) (l : List α) (seen : List String) (x : α) :
    x ∈ keepFirstBy f seen l ↔
      (f x ∉ seen ∧ l.find? (fun y => f y == f x) = some x) := by
  induction l generalizing seen with
  | nil => simp [keepFirstBy]
  | cons z zs ih =>
    simp only [keepFirstBy]
    by_cases hs : f z ∈ seen
    · rw [if_pos (List.elem_iff.mpr hs)]
      rw [ih]
      by_cases hfz : f z = f x
      · have hxs : f x ∈ seen := hfz ▸ hs
        simp [hxs]
      · have hfind : (z :: zs).find? (fun y => f y == f x) =
            zs.find? (fun y => f y == f x) :=
          List.find?_cons_of_neg _ (by simpa using hfz)
        rw [hfind]
    · rw [if_neg (fun h => hs (List.elem_iff.mp h))]
      by_cases hfz : f z = f x
      · have hfind : (z :: zs).find? (fun y => f y == f x) = some z :=
          List.find?_cons_of_pos _ (by simpa using hfz)
        rw [hfind]
        constructor
        · intro hmem
          rcases List.mem_cons.mp hmem with rfl | hmem
          · exact ⟨hfz ▸ hs, rfl⟩
          · rcases (ih _).mp hmem with ⟨hns, _⟩
            exact absurd (List.mem_append.mpr (Or.inr (by simp [hfz]))) hns
        · rintro ⟨hns, hzx⟩
          have hzx' : z = x := Option.some_inj.mp hzx
          exact hzx' ▸ List.mem_cons_self _ _
      · have hfind : (z :: zs).find? (fun y => f y == f x) =
            zs.find? (fun y => f y == f x) :=
          List.find?_cons_of_neg _ (by simpa using hfz)
        rw [hfind]
        constructor
        · intro hmem
          rcases List.mem_cons.mp hmem with rfl | hmem
          · exact absurd rfl hfz
          · rcases (ih _).mp hmem with ⟨hns, hf⟩
            exact ⟨fun hx => hns (List.mem_append.mpr (Or.inl hx)), hf⟩
        · rintro ⟨hns, hf⟩
          refine List.mem_cons_of_mem _ ((ih _).mpr ⟨?_, hf⟩)
          intro hx
          rcases List.mem_append.mp hx with h | h
          · exact hns h
          · exact hfz (List.mem_singleton.mp h).symm

theorem mem_dedupBy (f : α → String) (l : List α) (x : α) :
    x ∈ dedupBy f l ↔ l.find? (fun y => f y == f x) = some x := by
  rw [dedupBy, dedupBy_eq_keepFirstBy]
  simp [mem_keepFirstBy]

theorem keepFirstBy_names (f : α → String) (l : List α) (seen : List String) :
    ((keepFirstBy f seen l).map f).Nodup ∧
      ∀ s ∈ (keepFirstBy f seen l).map f, s ∉ seen := by
  induction l generalizing seen with
  | nil => simp [keepFirstBy]
  | cons z zs ih =>
    simp only [keepFirstBy]
    by_cases hs : f z ∈ seen
    · rw [if_pos (List.elem_iff.mpr hs)]
      exact ih seen
    · rw [if_neg (fun h => hs (List.elem_iff.mp h))]
      rcases ih (seen ++ [f z]) with ⟨hnd, hdisj⟩
      simp only [List.map_cons]
      refine ⟨List.nodup_cons.mpr ⟨?_, hnd⟩, ?_⟩
      · intro hmem
        exact hdisj (f z) hmem (List.mem_append.mpr (Or.inr (List.mem_singleton.mpr rfl)))
      · intro s hsmem
        rcases List.mem_cons.mp hsmem with rfl | hsmem
        · exact hs
        · exact fun hseen => hdisj s hsmem (List.mem_append.mpr (Or.inl hseen))

theorem dedupBy_names_nodup (f : α → String) (l : List α) :
    ((dedupBy f l).map f).Nodup := by
  rw [dedupBy, dedupBy_eq_keepFirstBy]
  simpa using (keepFirstBy_names f l []).1

theorem keepFirstBy_eq_self (f : α → String) (l : List α) (seen : List String)
    (hnd : (l.map f).Nodup) (hdisj : ∀ y ∈ l, f y ∉ seen) :
    keepFirstBy f seen l = l := by
  induction l generalizing seen with
  | nil => simp [keepFirstBy]
  | cons z zs ih =>
    have hnd' := hnd
    rw [List.map_cons, List.nodup_cons] at hnd'
    rcases hnd' with ⟨hz, hzs⟩
    simp only [keepFirstBy]
    rw [if_neg (fun h => hdisj z (List.mem_cons_self _ _) (List.elem_iff.mp h))]
    congr 1
    refine ih _ hzs ?_
    intro y hy hmem
    rcases List.mem_append.mp hmem with h | h
    · exact hdisj y (List.mem_cons_of_mem _ hy) h
    · exact hz ((List.mem_singleton.mp h) ▸ List.mem_map_of_mem f hy)

theorem dedupBy_eq_self (f : α → String) (l : List α) (hnd : (l.map f).Nodup) :
    dedupBy f l = l := by
  rw [dedupBy, dedupBy_eq_keepFirstBy]
  simpa using keepFirstBy_eq_self f l [] hnd (by simp)

/-! ### Characterisation of the candidate fold -/

theorem run_characterization (fs : FS) (cs : List (String × String))
    (st A : Assets) (h : cs.foldlM (processCandidate fs) st = .ok A) :
    A.field2ds = st.field2ds ++ collect2d fs cs ∧
    A.field3ds = st.field3ds ++ collect3d fs cs ∧
    A.robots = st.robots ++ collectRobot fs cs ∧
    A.joysticks = st.joysticks ++ collectJoystick fs cs ∧
    ∀ n : String, A.loadFailures.count n =
      st.loadFailures.count n +
        (cs.filter fun c => staysFailure fs c && c.2 == n).length := by
  induction cs generalizing st with
  | nil =>
    simp only [List.foldlM_nil, pure] at h
    cases h
    simp [collect2d, collect3d, collectRobot, collectJoystick]
  | cons c cs ih =>
    rw [List.foldlM_cons] at h
    cases hstep : processCandidate fs st c with
    | error e => rw [hstep] at h; cases h
    | ok st1 =>
      rw [hstep] at h
      replace h : cs.foldlM (processCandidate fs) st1 = .ok A := h
      rcases ih st1 h with ⟨h2, h3, hr, hj, hf⟩
      unfold processCandidate at hstep
      cases hout : candidateOutcome fs c.1 c.2 with
      | error e => rw [hout] at hstep; cases hstep
      | ok o =>
        rw [hout] at hstep
        cases o with
        | none =>
          cases hstep
          have hsf : staysFailure fs c = true := by
            simp [staysFailure, hout]
          have hcoll2 : outcome2d fs c = none := by simp [outcome2d, hout]
          have hcoll3 : outcome3d fs c = none := by simp [outcome3d, hout]
          have hcollr : outcomeRobot fs c = none := by simp [outcomeRobot, hout]
          have hcollj : outcomeJoystick fs c = none := by simp [outcomeJoystick, hout]
          refine ⟨?_, ?_, ?_, ?_, ?_⟩
          · simpa [pushFailure, collect2d, hcoll2] using h2
          · simpa [pushFailure, collect3d, hcoll3] using h3
          · simpa [pushFailure, collectRobot, hcollr] using hr
          · simpa [pushFailure, collectJoystick, hcollj] using hj
          · intro n
            rw [hf n]
            simp only [pushFailure, List.count_append, List.filter_cons, hsf,
              Bool.true_and]
            by_cases hn : c.2 = n
            · subst hn
              simp [List.count_singleton, Nat.add_comm, Nat.add_assoc,
                Nat.add_left_comm]
            · have : (c.2 == n) = false := beq_eq_false_iff_ne.mpr hn
              simp [this, List.count_singleton, hn, Nat.add_comm,
                Nat.add_assoc, Nat.add_left_comm]
        | some r =>
          cases hstep
          have hsf : staysFailure fs c = false := by
            simp [staysFailure, hout]
          have hfailcount : ∀ n : String,
              (removeFirst (st.loadFailures ++ [c.2]) c.2).count n =
                st.loadFailures.count n := by
            intro n
            by_cases hn : c.2 = n
            · subst hn
              rw [removeFirst, List.count_erase_self, List.count_append]
              simp
            · rw [removeFirst, List.count_erase_of_ne (Ne.symm hn),
                List.count_append, List.count_singleton']
              simp
              exact hn
          cases r with
          | f2 cfg =>
            have hcoll2 : outcome2d fs c = some cfg := by simp [outcome2d, hout]
            have hcoll3 : outcome3d fs c = none := by simp [outcome3d, hout]
            have hcollr : outcomeRobot fs c = none := by simp [outcomeRobot, hout]
            have hcollj : outcomeJoystick fs c = none := by simp [outcomeJoystick, hout]
            refine ⟨?_, ?_, ?_, ?_, ?_⟩
            · simpa [addRecord, pushFailure, collect2d, hcoll2] using h2
            · simpa [addRecord, pushFailure, collect3d, hcoll3] using h3
            · simpa [addRecord, pushFailure, collectRobot, hcollr] using hr
            · simpa [addRecord, pushFailure, collectJoystick, hcollj] using hj
            · intro n
              rw [hf n]
              simp only [addRecord, pushFailure, List.filter_cons, hsf,
                Bool.false_and, hfailcount n]
              simp
          | f3 cfg =>
            have hcoll2 : outcome2d fs c = none := by simp [outcome2d, hout]
            have hcoll3 : outcome3d fs c = some cfg := by simp [outcome3d, hout]
            have hcollr : outcomeRobot fs c = none := by simp [outcomeRobot, hout]
            have hcollj : outcomeJoystick fs c = none := by simp [outcomeJoystick, hout]
            refine ⟨?_, ?_, ?_, ?_, ?_⟩
            · simpa [addRecord, pushFailure, collect2d, hcoll2] using h2
            · simpa [addRecord, pushFailure, collect3d, hcoll3] using h3
            · simpa [addRecord, pushFailure, collectRobot, hcollr] using hr
            · simpa [addRecord, pushFailure, collectJoystick, hcollj] using hj
            · intro n
              rw [hf n]
              simp only [addRecord, pushFailure, List.filter_cons, hsf,
                Bool.false_and, hfailcount n]
              simp
          | rb cfg =>
            have hcoll2 : outcome2d fs c = none := by simp [outcome2d, hout]
            have hcoll3 : outcome3d fs c = none := by simp [outcome3d, hout]
            have hcollr : outcomeRobot fs c = some cfg := by simp [outcomeRobot, hout]
            have hcollj : outcomeJoystick fs c = none := by simp [outcomeJoystick, hout]
            refine ⟨?_, ?_, ?_, ?_, ?_⟩
            · simpa [addRecord, pushFailure, collect2d, hcoll2] using h2
            · simpa [addRecord, pushFailure, collect3d, hcoll3] using h3
            · simpa [addRecord, pushFailure, collectRobot, hcollr] using hr
            · simpa [addRecord, pushFailure, collectJoystick, hcollj] using hj
            · intro n
              rw [hf n]
              simp only [addRecord, pushFailure, List.filter_cons, hsf,
                Bool.false_and, hfailcount n]
              simp
          | js cfg =>
            have hcoll2 : outcome2d fs c = none := by simp [outcome2d, hout]
            have hcoll3 : outcome3d fs c = none := by simp [outcome3d, hout]
            have hcollr : outcomeRobot fs c = none := by simp [outcomeRobot, hout]
            have hcollj : outcomeJoystick fs c = some cfg := by
              simp [outcomeJoystick, hout]
            refine ⟨?_, ?_, ?_, ?_, ?_⟩
            · simpa [addRecord, pushFailure, collect2d, hcoll2] using h2
            · simpa [addRecord, pushFailure, collect3d, hcoll3] using h3
            · simpa [addRecord, pushFailure, collectRobot, hcollr] using hr
            · simpa [addRecord, pushFailure, collectJoystick, hcollj] using hj
            · intro n
              rw [hf n]
              simp only [addRecord, pushFailure, List.filter_cons, hsf,
                Bool.false_and, hfailcount n]
              simp

theorem loadAssetsE_ok_elim (fs : FS) (roots : List SourceRoot) (A : Assets)
    (h : loadAssetsE fs roots = .ok A) :
    ∃ raw, (scanAll roots).foldlM (processCandidate fs) emptyAssets = .ok raw ∧
      A = sortAssets (dedupAssets raw) := by
  unfold loadAssetsE at h
  cases hfold : (scanAll roots).foldlM (processCandidate fs) emptyAssets with
  | error e => rw [hfold] at h; cases h
  | ok raw =>
    rw [hfold] at h
    replace h : Except.ok (sortAssets (dedupAssets raw)) = Except.ok A := h
    exact ⟨raw, rfl, (Except.ok.inj h).symm⟩

theorem mem_final_field2ds (raw : Assets) (x : Config2d) :
    x ∈ (sortAssets (dedupAssets raw)).field2ds ↔
      x ∈ dedupBy Config2d.name raw.field2ds := by
  simp [sortAssets, dedupAssets, mem_sortByLe]

theorem mem_final_field3ds (raw : Assets) (x : Config3dField) :
    x ∈ (sortAssets (dedupAssets raw)).field3ds ↔
      x ∈ dedupBy Config3dField.name raw.field3ds := by
  simp [sortAssets, dedupAssets, mem_sortByLe]

theorem mem_final_robots (raw : Assets) (x : Config3dRobot) :
    x ∈ (sortAssets (dedupAssets raw)).robots ↔
      x ∈ dedupBy Config3dRobot.name raw.robots := by
  simp [sortAssets, dedupAssets, mem_sortByLe]

theorem mem_final_joysticks (raw : Assets) (x : ConfigJoystick) :
    x ∈ (sortAssets (dedupAssets raw)).joysticks ↔
      x ∈ dedupBy ConfigJoystick.name raw.joysticks := by
  simp [sortAssets, dedupAssets, mem_sortByLe]

theorem count_final_loadFailures (raw : Assets) (n : String) :
    (sortAssets (dedupAssets raw)).loadFailures.count n =
      raw.loadFailures.count n := by
  simp [sortAssets, dedupAssets, count_sortByLe]

/-- A candidate whose name matches none of the four prefixes never
produces a record and never throws, whatever its `config.json` holds. -/
theorem unprefixed_outcome (fs : FS) (p n : String)
    (hpre : kindPrefixed n = false) :
    candidateOutcome fs p n = .ok none := by
  unfold kindPrefixed at hpre
  simp only [Bool.or_eq_false_iff] at hpre
  obtain ⟨⟨⟨h1, h2⟩, h3⟩, h4⟩ := hpre
  unfold candidateOutcome
  cases hex : fs.fileExists (pjoin (pjoin p n) "config.json") with
  | false => simp [hex]; rfl
  | true =>
    simp only [hex]
    cases hread : fs.readJson (pjoin (pjoin p n) "config.json") with
    | error e => simp; rfl
    | ok raw =>
      cases hobj : raw.objLike with
      | false => simp [hobj]; rfl
      | true => simp [hobj, h1, h2, h3, h4]; rfl

/-- No candidate of a successful run throws. -/
theorem fold_ok_no_throw (fs : FS) (cs : List (String × String)) (st A : Assets)
    (h : cs.foldlM (processCandidate fs) st = .ok A) :
    ∀ c ∈ cs, candidateOutcome fs c.1 c.2 ≠ .error () := by
  induction cs generalizing st with
  | nil => simp
  | cons c cs ih =>
    rw [List.foldlM_cons] at h
    cases hstep : processCandidate fs st c with
    | error e => rw [hstep] at h; cases h
    | ok st1 =>
      rw [hstep] at h
      replace h : cs.foldlM (processCandidate fs) st1 = .ok A := h
      intro d hd
      rcases List.mem_cons.mp hd with rfl | hd
      · intro hout
        unfold processCandidate at hstep
        rw [hout] at hstep
        cases hstep
      · exact ih st1 h d hd

/-- Membership in the returned failure list, by counting. -/
theorem mem_final_loadFailures (fs : FS) (roots : List SourceRoot) (A : Assets)
    (h : loadAssetsE fs roots = .ok A) (n : String) :
    n ∈ A.loadFailures ↔
      ((scanAll roots).filter fun c => staysFailure fs c && c.2 == n) ≠ [] := by
  rcases loadAssetsE_ok_elim fs roots A h with ⟨raw, hfold, rfl⟩
  rcases run_characterization fs (scanAll roots) emptyAssets raw hfold with
    ⟨-, -, -, -, hcount⟩
  rw [← List.count_pos_iff, count_final_loadFailures, hcount n]
  have : (emptyAssets.loadFailures.count n) = 0 := rfl
  rw [this]
  constructor
  · intro hpos hnil
    rw [hnil] at hpos
    simp at hpos
  · intro hne
    have := List.length_pos.mpr hne
    omega

/-- C2 (counterexample): a non-hidden directory named `Stuff`, matching
none of the four prefixes, produces no record but ends up in the returned
`loadFailures`, contradicting the claim that such names never appear
there. -/
theorem C2_counterexample :
    kindPrefixed "Stuff" = false ∧
    loadAssetsE fsC rootsC = .ok assetsC ∧
    "Stuff" ∈ assetsC.loadFailures :=
  ⟨rfl, rfl, by decide⟩

/-- C2 (amended): a non-hidden immediate subdirectory whose name matches
none of the four kind prefixes produces no record of any kind, but its
bare name DOES remain in the returned `loadFailures` list (the source
pushes every candidate at line 148 and only removes it on admission). -/
theorem C2_theorem (fs : FS) (roots : List SourceRoot) (A : Assets)
    (h : loadAssetsE fs roots = .ok A) (p n : String)
    (hmem : (p, n) ∈ scanAll roots) (hpre : kindPrefixed n = false) :
    candidateOutcome fs p n = .ok none ∧ n ∈ A.loadFailures := by
  have hout := unprefixed_outcome fs p n hpre
  refine ⟨hout, ?_⟩
  rw [mem_final_loadFailures fs roots A h n]
  intro hnil
  have hmemf : (p, n) ∈ (scanAll roots).filter
      fun c => staysFailure fs c && c.2 == n := by
    refine List.mem_filter.mpr ⟨hmem, ?_⟩
    simp [staysFailure, hout]
  rw [hnil] at hmemf
  cases hmemf

/-- C2 (witness): the amended theorem at scenario C. -/
theorem C2_witness :
    candidateOutcome fsC "u" "Stuff" = .ok none ∧
    "Stuff" ∈ assetsC.loadFailures :=
  C2_theorem fsC rootsC assetsC (by rfl) "u" "Stuff" (by decide) (by decide)

/-- C1 (counterexample): two violations of the one-place accounting.
With directory `Field2d_X` present under both roots (scenario B) —
failing under `r1` (no `config.json`), fully valid under `r2` — the `r2`
candidate backs a record in the returned collection AND its bare name
remains in `loadFailures`, contradicting "never both".  With distinct
directory names `Field2d_A` and `Field2d_B` carrying the same display
name `X` (scenario I), the admitted `r2/Field2d_B` candidate's record is
discarded by display-name deduplication and its name is not in
`loadFailures` either: that candidate ends up in NEITHER place, so
distinct candidate directory names alone do not restore the accounting. -/
theorem C1_counterexample :
    (loadAssetsE fsB rootsB = .ok assetsB ∧
      candidateOutcome fsB "r2" "Field2d_X" =
        .ok (some (.f2 (parse2d "r2/Field2d_X" (cfg2dJson "X")))) ∧
      parse2d "r2/Field2d_X" (cfg2dJson "X") ∈ assetsB.field2ds ∧
      "Field2d_X" ∈ assetsB.loadFailures) ∧
    (loadAssetsE fsI rootsI = .ok assetsI ∧
      ((scanAll rootsI).map Prod.snd).Nodup ∧
      candidateOutcome fsI "r2" "Field2d_B" =
        .ok (some (.f2 (parse2d "r2/Field2d_B" (cfg2dJson "X")))) ∧
      parse2d "r2/Field2d_B" (cfg2dJson "X") ∉ assetsI.field2ds ∧
      "Field2d_B" ∉ assetsI.loadFailures) := by
  refine ⟨⟨rfl, rfl, ?_, by decide⟩, rfl, by decide, rfl, ?_, by decide⟩
  · have hf : assetsB.field2ds = [parse2d "r2/Field2d_X" (cfg2dJson "X")] := rfl
    exact hf ▸ List.mem_singleton_self _
  · intro hmem
    have hf : assetsI.field2ds = [parse2d "r1/Field2d_A" (cfg2dJson "X")] := rfl
    rw [hf] at hmem
    have heq := List.mem_singleton.mp hmem
    have hpath := congrArg Config2d.path heq
    exact absurd hpath (by decide)

/-- C1 (amended): provided all scanned candidate directory names are
distinct and the admitted records of each kind have distinct display
names, every scanned candidate of a successful run ends up in exactly one
place in the returned collection: its name is in `loadFailures` exactly
when its outcome is no record, and an admitted record appears in its
kind's final collection with the candidate's name absent from
`loadFailures` (and no candidate throws).  Without those distinctness
conditions the claim fails, see `C1_counterexample`. -/
theorem C1_theorem (fs : FS) (roots : List SourceRoot) (A : Assets)
    (h : loadAssetsE fs roots = .ok A)
    (hnames : ((scanAll roots).map Prod.snd).Nodup)
    (h2 : ((collect2d fs (scanAll roots)).map Config2d.name).Nodup)
    (h3 : ((collect3d fs (scanAll roots)).map Config3dField.name).Nodup)
    (hrb : ((collectRobot fs (scanAll roots)).map Config3dRobot.name).Nodup)
    (hjs : ((collectJoystick fs (scanAll roots)).map ConfigJoystick.name).Nodup)
    (p n : String) (hmem : (p, n) ∈ scanAll roots) :
    candidateOutcome fs p n ≠ .error () ∧
    (n ∈ A.loadFailures ↔ candidateOutcome fs p n = .ok none) ∧
    ∀ r, candidateOutcome fs p n = .ok (some r) →
      A.hasRec r ∧ n ∉ A.loadFailures := by
  have huniq : ∀ c ∈ scanAll roots, c.2 = n → c = (p, n) := by
    intro c hc hcn
    exact List.inj_on_of_nodup_map hnames hc hmem (by simpa using hcn)
  have hstays : ∀ o, candidateOutcome fs p n = .ok o →
      (staysFailure fs (p, n) = true ↔ o = none) := by
    intro o ho
    cases o with
    | none => simp [staysFailure, ho]
    | some r => simp [staysFailure, ho]
  refine ⟨?_, ?_, ?_⟩
  · rcases loadAssetsE_ok_elim fs roots A h with ⟨raw, hfold, -⟩
    exact fold_ok_no_throw fs (scanAll roots) emptyAssets raw hfold (p, n) hmem
  · rw [mem_final_loadFailures fs roots A h n]
    constructor
    · intro hne
      rcases List.exists_mem_of_ne_nil _ hne with ⟨c, hcf⟩
      rcases List.mem_filter.mp hcf with ⟨hcs, hcond⟩
      simp only [Bool.and_eq_true] at hcond
      rcases hcond with ⟨hstay, hbeq⟩
      have hcn : c = (p, n) := huniq c hcs (beq_iff_eq.mp hbeq)
      subst hcn
      cases hout : candidateOutcome fs p n with
      | error e =>
        exfalso
        rcases loadAssetsE_ok_elim fs roots A h with ⟨raw, hfold, -⟩
        cases e
        exact fold_ok_no_throw fs (scanAll roots) emptyAssets raw hfold (p, n) hmem hout
      | ok o =>
        have ho : o = none := (hstays o hout).mp hstay
        rw [← ho]
    · intro hout hnil
      have hmemf : (p, n) ∈ (scanAll roots).filter
          fun c => staysFailure fs c && c.2 == n := by
        refine List.mem_filter.mpr ⟨hmem, ?_⟩
        simp [staysFailure, hout]
      rw [hnil] at hmemf
      cases hmemf
  · intro r hr
    have hnotfail : n ∉ A.loadFailures := by
      rw [mem_final_loadFailures fs roots A h n]
      intro hne
      have hnil : ((scanAll roots).filter
          fun c => staysFailure fs c && c.2 == n) = [] := by
        rw [List.eq_nil_iff_forall_not_mem]
        intro c hcf
        rcases List.mem_filter.mp hcf with ⟨hcs, hcond⟩
        simp only [Bool.and_eq_true] at hcond
        rcases hcond with ⟨hstay, hbeq⟩
        have hcn : c = (p, n) := huniq c hcs (beq_iff_eq.mp hbeq)
        subst hcn
        have : staysFailure fs (p, n) = false := by simp [staysFailure, hr]
        rw [this] at hstay
        cases hstay
      exact hne hnil
    refine ⟨?_, hnotfail⟩
    rcases loadAssetsE_ok_elim fs roots A h with ⟨raw, hfold, rfl⟩
    rcases run_characterization fs (scanAll roots) emptyAssets raw hfold with
      ⟨hc2, hc3, hcr, hcj, -⟩
    have hempty2 : emptyAssets.field2ds = [] := rfl
    have hempty3 : emptyAssets.field3ds = [] := rfl
    have hemptyr : emptyAssets.robots = [] := rfl
    have hemptyj : emptyAssets.joysticks = [] := rfl
    cases r with
    | f2 cfg =>
      show cfg ∈ (sortAssets (dedupAssets raw)).field2ds
      rw [mem_final_field2ds]
      rw [hc2, hempty2, List.nil_append, dedupBy_eq_self _ _ h2]
      exact List.mem_filterMap.mpr ⟨(p, n), hmem, by simp [outcome2d, hr]⟩
    | f3 cfg =>
      show cfg ∈ (sortAssets (dedupAssets raw)).field3ds
      rw [mem_final_field3ds]
      rw [hc3, hempty3, List.nil_append, dedupBy_eq_self _ _ h3]
      exact List.mem_filterMap.mpr ⟨(p, n), hmem, by simp [outcome3d, hr]⟩
    | rb cfg =>
      show cfg ∈ (sortAssets (dedupAssets raw)).robots
      rw [mem_final_robots]
      rw [hcr, hemptyr, List.nil_append, dedupBy_eq_self _ _ hrb]
      exact List.mem_filterMap.mpr ⟨(p, n), hmem, by simp [outcomeRobot, hr]⟩
    | js cfg =>
      show cfg ∈ (sortAssets (dedupAssets raw)).joysticks
      rw [mem_final_joysticks]
      rw [hcj, hemptyj, List.nil_append, dedupBy_eq_self _ _ hjs]
      exact List.mem_filterMap.mpr ⟨(p, n), hmem, by simp [outcomeJoystick, hr]⟩

/-- C1 (witness): the amended theorem at scenario A, candidate
`u/Field2d_Alpha`, whose record is admitted: it appears in the final
collection and its name is absent from `loadFailures`. -/
theorem C1_witness :
    cfgAlpha ∈ assetsA.field2ds ∧ "Field2d_Alpha" ∉ assetsA.loadFailures := by
  have := C1_theorem fsA rootsA assetsA (by rfl) (by decide) (by decide)
    (by decide) (by decide) (by decide) "u" "Field2d_Alpha" (by decide)
  rcases this with ⟨-, -, hrec⟩
  exact hrec (.f2 cfgAlpha) (by rfl)

/-! ### Order lemmas for the string comparison -/

theorem char_eq_of_toNat_eq {a b : Char} (h : a.toNat = b.toNat) : a = b := by
  apply Char.ext
  apply UInt32.ext
  simpa [Char.toNat] using h

theorem string_eq_of_data_eq {s t : String} (h : s.data = t.data) : s = t := by
  cases s; cases t; exact congrArg String.mk h

theorem clLt_total (a b : List Char) (h : a ≠ b) :
    clLt a b = true ∨ clLt b a = true := by
  induction a generalizing b with
  | nil =>
    cases b with
    | nil => exact absurd rfl h
    | cons y ys => left; simp [clLt]
  | cons x xs ih =>
    cases b with
    | nil => right; simp [clLt]
    | cons y ys =>
      by_cases hxy : x.toNat < y.toNat
      · left; simp [clLt, hxy]
      · by_cases hyx : y.toNat < x.toNat
        · right; simp [clLt, hyx]
        · have hEq : x = y := char_eq_of_toNat_eq (Nat.le_antisymm
            (Nat.le_of_not_lt hyx) (Nat.le_of_not_lt hxy))
          subst hEq
          have hne : xs ≠ ys := fun e => h (e ▸ rfl)
          rcases ih ys hne with hl | hr
          · left; simp [clLt, hl]
          · right; simp [clLt, hr]

theorem clLt_asymm (a b : List Char) (h : clLt a b = true) : clLt b a = false := by
  induction a generalizing b with
  | nil =>
    cases b with
    | nil => simp [clLt] at h
    | cons y ys => simp [clLt]
  | cons x xs ih =>
    cases b with
    | nil => simp [clLt] at h
    | cons y ys =>
      by_cases hxy : x.toNat < y.toNat
      · simp only [clLt, if_neg (Nat.lt_asymm hxy), if_pos hxy]
      · by_cases hyx : y.toNat < x.toNat
        · simp [clLt, hxy, hyx] at h
        · simp only [clLt, if_neg hxy, if_neg hyx] at h
          simp only [clLt, if_neg hyx, if_neg hxy]
          exact ih ys h

theorem clLt_trans (a b c : List Char) (hab : clLt a b = true)
    (hbc : clLt b c = true) : clLt a c = true := by
  induction a generalizing b c with
  | nil =>
    cases c with
    | nil =>
      cases b with
      | nil => simp [clLt] at hab
      | cons y ys => simp [clLt] at hbc
    | cons z zs => simp [clLt]
  | cons x xs ih =>
    cases b with
    | nil => simp [clLt] at hab
    | cons y ys =>
      cases c with
      | nil => simp [clLt] at hbc
      | cons z zs =>
        by_cases hxy : x.toNat < y.toNat
        · by_cases hyz : y.toNat < z.toNat
          · simp [clLt, Nat.lt_trans hxy hyz]
          · by_cases hzy : z.toNat < y.toNat
            · simp [clLt, hyz, hzy] at hbc
            · have : y = z := char_eq_of_toNat_eq (Nat.le_antisymm
                (Nat.le_of_not_lt hzy) (Nat.le_of_not_lt hyz))
              subst this
              simp [clLt, hxy]
        · by_cases hyx : y.toNat < x.toNat
          · simp [clLt, hxy, hyx] at hab
          · have : x = y := char_eq_of_toNat_eq (Nat.le_antisymm
              (Nat.le_of_not_lt hyx) (Nat.le_of_not_lt hxy))
            subst this
            simp only [clLt, if_neg hxy, if_neg hyx] at hab
            by_cases hyz : x.toNat < z.toNat
            · simp [clLt, hyz]
            · by_cases hzy : z.toNat < x.toNat
              · simp [clLt, hyz, hzy] at hbc
              · simp only [clLt, if_neg hyz, if_neg hzy] at hbc ⊢
                exact ih ys zs hab hbc

theorem strLt_total (a b : String) (h : a ≠ b) :
    strLt a b = true ∨ strLt b a = true :=
  clLt_total a.data b.data fun e => h (string_eq_of_data_eq e)

theorem strLt_asymm (a b : String) (h : strLt a b = true) : strLt b a = false :=
  clLt_asymm a.data b.data h

theorem strLt_trans (a b c : String) (hab : strLt a b = true)
    (hbc : strLt b c = true) : strLt a c = true :=
  clLt_trans a.data b.data c.data hab hbc

theorem strLt_irrefl (a : String) : strLt a a = false := by
  cases h : strLt a a
  · rfl
  · have hcon := strLt_asymm a a h
    rw [h] at hcon
    simp at hcon

theorem strLt_not_of_not_not (a b c : String) (hab : strLt a b = false)
    (hbc : strLt b c = false) : strLt a c = false := by
  by_cases heq : a = b
  · exact heq ▸ hbc
  cases hac : strLt a c
  · rfl
  · exfalso
    rcases strLt_total a b heq with h | h
    · rw [h] at hab; cases hab
    · have hbc' := strLt_trans b a c h hac
      rw [hbc'] at hbc
      cases hbc

theorem f2le_total (a b : Config2d) (h : a.name ≠ b.name) :
    decide (field2dCmp a b ≤ 0) = true ∨ decide (field2dCmp b a ≤ 0) = true := by
  unfold field2dCmp
  by_cases ha : a.name = "Evergreen"
  · right
    have hb : (b.name == "Evergreen") = false :=
      beq_eq_false_iff_ne.mpr (fun e => h (ha.trans e.symm))
    simp [hb, beq_iff_eq.mpr ha]
  · by_cases hb : b.name = "Evergreen"
    · left
      have ha' : (a.name == "Evergreen") = false := beq_eq_false_iff_ne.mpr ha
      simp [ha', beq_iff_eq.mpr hb]
    · have ha' : (a.name == "Evergreen") = false := beq_eq_false_iff_ne.mpr ha
      have hb' : (b.name == "Evergreen") = false := beq_eq_false_iff_ne.mpr hb
      rcases strLt_total a.name b.name h with hl | hl
      · right
        simp [ha', hb', hl]
      · left
        simp [ha', hb', hl]

theorem f2le_trans (a b c : Config2d)
    (hab : decide (field2dCmp a b ≤ 0) = true)
    (hbc : decide (field2dCmp b c ≤ 0) = true) :
    decide (field2dCmp a c ≤ 0) = true := by
  rw [decide_eq_true_eq] at hab hbc ⊢
  unfold field2dCmp at hab hbc ⊢
  by_cases ha : a.name = "Evergreen"
  · simp [beq_iff_eq.mpr ha] at hab
  by_cases hb : b.name = "Evergreen"
  · have ha' : (a.name == "Evergreen") = false := beq_eq_false_iff_ne.mpr ha
    simp [beq_iff_eq.mpr hb] at hbc
  by_cases hc : c.name = "Evergreen"
  · have ha' : (a.name == "Evergreen") = false := beq_eq_false_iff_ne.mpr ha
    simp [ha', beq_iff_eq.mpr hc]
  · have ha' : (a.name == "Evergreen") = false := beq_eq_false_iff_ne.mpr ha
    have hb' : (b.name == "Evergreen") = false := beq_eq_false_iff_ne.mpr hb
    have hc' : (c.name == "Evergreen") = false := beq_eq_false_iff_ne.mpr hc
    simp only [ha', hb', hc', Bool.false_eq_true, if_false] at hab hbc ⊢
    have hnab : strLt a.name b.name = false := by
      cases h1 : strLt b.name a.name
      · cases h2 : strLt a.name b.name
        · rfl
        · simp [h1, h2] at hab
      · exact strLt_asymm b.name a.name h1
    have hnbc : strLt b.name c.name = false := by
      cases h1 : strLt c.name b.name
      · cases h2 : strLt b.name c.name
        · rfl
        · simp [h1, h2] at hbc
      · exact strLt_asymm c.name b.name h1
    have hnac := strLt_not_of_not_not a.name b.name c.name hnab hnbc
    cases h1 : strLt c.name a.name
    · simp [h1, hnac]
    · simp [h1]

/-- C3 (counterexample): for the input display names
`[Alpha, Evergreen, Zeta]` the returned `field2ds` order is
`[Zeta, Alpha, Evergreen]`, not the claimed `[Alpha, Zeta, Evergreen]`:
the comparator at lines 639-643 sorts descending, not ascending. -/
theorem C3_counterexample :
    ((loadAssetsE fsA rootsA).map fun a => a.field2ds.map Config2d.name) =
      .ok ["Zeta", "Alpha", "Evergreen"] ∧
    (["Zeta", "Alpha", "Evergreen"] : List String) ≠
      ["Alpha", "Zeta", "Evergreen"] :=
  ⟨rfl, by decide⟩

/-- C3 (amended): the final `field2ds` list is sorted DESCENDING by name
under case-sensitive code-unit comparison, except that a record named
exactly `"Evergreen"` is placed at the end; in particular, for input
names `[Alpha, Evergreen, Zeta]` the output order is
`[Zeta, Alpha, Evergreen]` (see the witness). -/
theorem C3_theorem (fs : FS) (roots : List SourceRoot) (A : Assets)
    (h : loadAssetsE fs roots = .ok A) :
    A.field2ds.Pairwise fun a b =>
      b.name = "Evergreen" ∨
        (a.name ≠ "Evergreen" ∧ strLt b.name a.name = true) := by
  rcases loadAssetsE_ok_elim fs roots A h with ⟨raw, hfold, rfl⟩
  have hA : (sortAssets (dedupAssets raw)).field2ds =
      sortByLe (fun x y => decide (field2dCmp x y ≤ 0))
        (dedupBy Config2d.name raw.field2ds) := rfl
  rw [hA]
  have hnames : ((dedupBy Config2d.name raw.field2ds).map Config2d.name).Nodup :=
    dedupBy_names_nodup _ _
  have hnd : (dedupBy Config2d.name raw.field2ds).Nodup := hnames.of_map
  have hsorted := pairwise_sortByLe (fun x y => decide (field2dCmp x y ≤ 0))
    (dedupBy Config2d.name raw.field2ds) hnd
    (fun a ha b hb hab => f2le_total a b
      (fun e => hab (List.inj_on_of_nodup_map hnames ha hb e)))
    (fun a b c _ _ _ hab hbc => f2le_trans a b c hab hbc)
  have hperm := sortByLe_perm (fun x y => decide (field2dCmp x y ≤ 0))
    (dedupBy Config2d.name raw.field2ds)
  have hnames' := (hperm.map Config2d.name).nodup_iff.mpr hnames
  have hdist := List.pairwise_map.mp hnames'
  refine (hsorted.and hdist).imp ?_
  rintro a b ⟨hle, hne⟩
  rw [decide_eq_true_eq] at hle
  unfold field2dCmp at hle
  by_cases ha : a.name = "Evergreen"
  · simp [beq_iff_eq.mpr ha] at hle
  by_cases hb : b.name = "Evergreen"
  · exact Or.inl hb
  · refine Or.inr ⟨ha, ?_⟩
    have ha' := beq_eq_false_iff_ne.mpr ha
    have hb' := beq_eq_false_iff_ne.mpr hb
    simp only [ha', hb', Bool.false_eq_true, if_false] at hle
    cases h1 : strLt b.name a.name
    · exfalso
      rcases strLt_total a.name b.name hne with h2 | h2
      · simp [h1, h2] at hle
      · rw [h2] at h1; cases h1
    · rfl

/-- C3 (witness): the amended theorem at scenario A, together with the
concrete output order. -/
theorem C3_witness :
    assetsA.field2ds.Pairwise (fun a b =>
      b.name = "Evergreen" ∨
        (a.name ≠ "Evergreen" ∧ strLt b.name a.name = true)) ∧
    assetsA.field2ds.map Config2d.name = ["Zeta", "Alpha", "Evergreen"] :=
  ⟨C3_theorem fsA rootsA assetsA (by rfl), by rfl⟩

/-- C6: for every kind, a record is in the returned collection exactly
when it is the FIRST admitted record (in scan order) with its display
name; and the scan-order record accumulation is the concatenation of the
per-root accumulations in descending priority order, so when the same
display name is admitted from two roots the record retained after
deduplication is the one from the higher-priority root. -/
theorem C6_theorem (fs : FS) (roots : List SourceRoot) (A : Assets)
    (h : loadAssetsE fs roots = .ok A) :
    (∀ r : Config2d, r ∈ A.field2ds ↔
      (collect2d fs (scanAll roots)).find? (fun y => y.name == r.name) = some r) ∧
    (∀ r : Config3dField, r ∈ A.field3ds ↔
      (collect3d fs (scanAll roots)).find? (fun y => y.name == r.name) = some r) ∧
    (∀ r : Config3dRobot, r ∈ A.robots ↔
      (collectRobot fs (scanAll roots)).find? (fun y => y.name == r.name) = some r) ∧
    (∀ r : ConfigJoystick, r ∈ A.joysticks ↔
      (collectJoystick fs (scanAll roots)).find? (fun y => y.name == r.name) = some r) ∧
    collect2d fs (scanAll roots) =
      (roots.map fun rt => collect2d fs (scanRoot rt)).flatten ∧
    collect3d fs (scanAll roots) =
      (roots.map fun rt => collect3d fs (scanRoot rt)).flatten ∧
    collectRobot fs (scanAll roots) =
      (roots.map fun rt => collectRobot fs (scanRoot rt)).flatten ∧
    collectJoystick fs (scanAll roots) =
      (roots.map fun rt => collectJoystick fs (scanRoot rt)).flatten := by
  rcases loadAssetsE_ok_elim fs roots A h with ⟨raw, hfold, rfl⟩
  rcases run_characterization fs (scanAll roots) emptyAssets raw hfold with
    ⟨hc2, hc3, hcr, hcj, -⟩
  have hempty2 : emptyAssets.field2ds = [] := rfl
  have hempty3 : emptyAssets.field3ds = [] := rfl
  have hemptyr : emptyAssets.robots = [] := rfl
  have hemptyj : emptyAssets.joysticks = [] := rfl
  rw [hempty2, List.nil_append] at hc2
  rw [hempty3, List.nil_append] at hc3
  rw [hemptyr, List.nil_append] at hcr
  rw [hemptyj, List.nil_append] at hcj
  refine ⟨?_, ?_, ?_, ?_, ?_, ?_, ?_, ?_⟩
  · intro r
    rw [mem_final_field2ds, hc2, mem_dedupBy]
  · intro r
    rw [mem_final_field3ds, hc3, mem_dedupBy]
  · intro r
    rw [mem_final_robots, hcr, mem_dedupBy]
  · intro r
    rw [mem_final_joysticks, hcj, mem_dedupBy]
  · rw [collect2d, scanAll, List.filterMap_flatten, List.map_map]
    rfl
  · rw [collect3d, scanAll, List.filterMap_flatten, List.map_map]
    rfl
  · rw [collectRobot, scanAll, List.filterMap_flatten, List.map_map]
    rfl
  · rw [collectJoystick, scanAll, List.filterMap_flatten, List.map_map]
    rfl

/-- C6 (witness): scenario I — display name `X` admitted under both
roots; the record from the higher-priority root `r1` is retained and the
lower-priority `r2` record is not. -/
theorem C6_witness :
    parse2d "r1/Field2d_A" (cfg2dJson "X") ∈ assetsI.field2ds ∧
    parse2d "r2/Field2d_B" (cfg2dJson "X") ∉ assetsI.field2ds := by
  have hm := (C6_theorem fsI rootsI assetsI (by rfl)).1
  constructor
  · exact (hm _).mpr (by rfl)
  · intro hmem
    have hfound := (hm _).mp hmem
    have hcomp : (collect2d fsI (scanAll rootsI)).find?
        (fun y => y.name == (parse2d "r2/Field2d_B" (cfg2dJson "X")).name) =
        some (parse2d "r1/Field2d_A" (cfg2dJson "X")) := by rfl
    rw [hcomp] at hfound
    have heq := Option.some_inj.mp hfound
    have hpath := congrArg Config2d.path heq
    exact absurd hpath (by decide)

/-! ### Per-candidate outcome lemmas for prefixed candidates -/

theorem outcome_field2d (fs : FS) (p n : String) (raw : Json)
    (hpre : strStarts n "Field2d_" = true)
    (hex : fs.fileExists (pjoin (pjoin p n) "config.json") = true)
    (hread : fs.readJson (pjoin (pjoin p n) "config.json") = .ok raw)
    (hobj : raw.objLike = true) :
    candidateOutcome fs p n =
      .ok (if admit2d fs (parse2d (pjoin p n) raw) then
        some (.f2 (parse2d (pjoin p n) raw)) else none) := by
  unfold candidateOutcome
  simp [hex, hread, hobj, hpre]
  rfl

theorem outcome_field3d (fs : FS) (p n : String) (raw : Json)
    (cfg : Config3dField)
    (hnot2 : strStarts n "Field2d_" = false)
    (hpre : strStarts n "Field3d_" = true)
    (hex : fs.fileExists (pjoin (pjoin p n) "config.json") = true)
    (hread : fs.readJson (pjoin (pjoin p n) "config.json") = .ok raw)
    (hobj : raw.objLike = true)
    (hparse : parseField3d (pjoin p n) raw = .ok cfg) :
    candidateOutcome fs p n =
      .ok (if admitField3d fs cfg then some (.f3 cfg) else none) := by
  unfold candidateOutcome
  simp [hex, hread, hobj, hnot2, hpre, hparse]

theorem outcome_robot (fs : FS) (p n : String) (raw : Json)
    (cfg : Config3dRobot)
    (hnot2 : strStarts n "Field2d_" = false)
    (hnot3 : strStarts n "Field3d_" = false)
    (hpre : strStarts n "Robot_" = true)
    (hex : fs.fileExists (pjoin (pjoin p n) "config.json") = true)
    (hread : fs.readJson (pjoin (pjoin p n) "config.json") = .ok raw)
    (hobj : raw.objLike = true)
    (hparse : parseRobot (pjoin p n) raw = .ok cfg) :
    candidateOutcome fs p n =
      .ok (if admitRobot fs cfg then some (.rb cfg) else none) := by
  unfold candidateOutcome
  simp [hex, hread, hobj, hnot2, hnot3, hpre, hparse]

theorem outcome_joystick (fs : FS) (p n : String) (raw : Json)
    (cfg : ConfigJoystick)
    (hnot2 : strStarts n "Field2d_" = false)
    (hnot3 : strStarts n "Field3d_" = false)
    (hnotr : strStarts n "Robot_" = false)
    (hpre : strStarts n "Joystick_" = true)
    (hex : fs.fileExists (pjoin (pjoin p n) "config.json") = true)
    (hread : fs.readJson (pjoin (pjoin p n) "config.json") = .ok raw)
    (hobj : raw.objLike = true)
    (hparse : parseJoystick (pjoin p n) raw = .ok cfg) :
    candidateOutcome fs p n =
      .ok (if admitJoystick fs cfg then some (.js cfg) else none) := by
  unfold candidateOutcome
  simp [hex, hread, hobj, hnot2, hnot3, hnotr, hpre, hparse]

/-! ### Admission gates as propositions -/

theorem admit2d_iff (fs : FS) (c : Config2d) :
    admit2d fs c = true ↔
      (0 < c.name.length ∧ 0 ≤ c.topLeft.1 ∧ 0 ≤ c.topLeft.2 ∧
       0 ≤ c.bottomRight.1 ∧ 0 ≤ c.bottomRight.2 ∧
       0 < c.widthInches ∧ 0 < c.heightInches ∧
       fs.fileExists (decodeURIComponentS c.path) = true) := by
  unfold admit2d
  simp [Bool.and_eq_true, decide_eq_true_eq, and_assoc]

theorem admitField3d_iff (fs : FS) (c : Config3dField) :
    admitField3d fs c = true ↔
      (0 < c.name.length ∧ 0 < c.widthInches ∧ 0 < c.heightInches ∧
       fs.fileExists (decodeURIComponentS c.path) = true ∧
       ∀ i < c.gamePieces.length,
         fs.fileExists (auxPath (decodeURIComponentS c.path) i) = true) := by
  unfold admitField3d
  simp only [Bool.and_eq_true, decide_eq_true_eq, and_assoc]
  rw [everyIdx_eq_true_iff]
  simp

theorem admitRobot_iff (fs : FS) (c : Config3dRobot) :
    admitRobot fs c = true ↔
      (0 < c.name.length ∧ (∀ cam ∈ c.cameras, 0 < cam.name.length) ∧
       fs.fileExists (decodeURIComponentS c.path) = true ∧
       ∀ i < c.components.length,
         fs.fileExists (auxPath (decodeURIComponentS c.path) i) = true) := by
  unfold admitRobot
  simp only [Bool.and_eq_true, decide_eq_true_eq, and_assoc, List.all_eq_true]
  rw [everyIdx_eq_true_iff]
  simp

theorem joyComponentOk_iff (comp : JoystickComponent) :
    joyComponentOk comp = true ↔
      (match comp with
        | .button _ _ _ sizePx sourceIndex _ =>
          0 < sizePx.1 ∧ 0 < sizePx.2 ∧ 0 ≤ sourceIndex
        | .stick _ _ radiusPx xSourceIndex _ ySourceIndex _ _ =>
          0 < radiusPx ∧ 0 ≤ xSourceIndex ∧ 0 ≤ ySourceIndex
        | .axis _ _ sizePx sourceIndex _ =>
          0 < sizePx.1 ∧ 0 < sizePx.2 ∧ 0 ≤ sourceIndex) := by
  cases comp <;> simp [joyComponentOk, Bool.and_eq_true, decide_eq_true_eq, and_assoc]

theorem admitJoystick_iff (fs : FS) (c : ConfigJoystick) :
    admitJoystick fs c = true ↔
      (0 < c.name.length ∧ (∀ comp ∈ c.components, joyComponentOk comp = true) ∧
       fs.fileExists (decodeURIComponentS c.path) = true) := by
  unfold admitJoystick
  simp [Bool.and_eq_true, decide_eq_true_eq, and_assoc, List.all_eq_true]

/-- C7: a 2D-field candidate is admitted exactly when its coerced record
has a non-empty name, non-negative `topLeft` and `bottomRight`
coordinates, strictly positive `widthInches` and `heightInches`, and an
existing referenced image; consequently, when `topLeft` is absent or
mis-typed the record keeps the default `(-1, -1)` and the candidate is
rejected regardless of every other field. -/
theorem C7_theorem (fs : FS) (p n : String) (raw : Json)
    (hpre : strStarts n "Field2d_" = true)
    (hex : fs.fileExists (pjoin (pjoin p n) "config.json") = true)
    (hread : fs.readJson (pjoin (pjoin p n) "config.json") = .ok raw)
    (hobj : raw.objLike = true) (cfg : Config2d)
    (hcfg : cfg = parse2d (pjoin p n) raw) :
    (candidateOutcome fs p n = .ok (some (.f2 cfg)) ↔
      (0 < cfg.name.length ∧ 0 ≤ cfg.topLeft.1 ∧ 0 ≤ cfg.topLeft.2 ∧
       0 ≤ cfg.bottomRight.1 ∧ 0 ≤ cfg.bottomRight.2 ∧
       0 < cfg.widthInches ∧ 0 < cfg.heightInches ∧
       fs.fileExists (decodeURIComponentS cfg.path) = true)) ∧
    (raw.numPairField "topLeft" = none →
      cfg.topLeft = (-1, -1) ∧ candidateOutcome fs p n = .ok none) := by
  have hout := outcome_field2d fs p n raw hpre hex hread hobj
  rw [← hcfg] at hout
  have hTL : raw.numPairField "topLeft" = none → cfg.topLeft = (-1, -1) := by
    intro hnone
    rw [hcfg]
    simp [parse2d, hnone]
  constructor
  · rw [hout]
    cases ha : admit2d fs cfg
    · rw [if_neg (by simp [ha])]
      refine iff_of_false (by simp) ?_
      intro hc
      exact absurd ((admit2d_iff fs cfg).mpr hc) (by simp [ha])
    · rw [if_pos (by simp [ha])]
      exact iff_of_true rfl ((admit2d_iff fs cfg).mp ha)
  · intro hnone
    refine ⟨hTL hnone, ?_⟩
    have hfalse : admit2d fs cfg = false := by
      cases ha : admit2d fs cfg
      · rfl
      · exfalso
        rcases (admit2d_iff fs cfg).mp ha with ⟨-, hTL1, -⟩
        rw [hTL hnone] at hTL1
        norm_num at hTL1
    rw [hout, if_neg (by simp [hfalse])]

/-- C7 (witness): scenario A's `Field2d_Alpha` candidate satisfies every
condition and is admitted. -/
theorem C7_witness :
    candidateOutcome fsA "u" "Field2d_Alpha" = .ok (some (.f2 cfgAlpha)) ∧
    cfgAlpha.topLeft = (0, 0) := by
  have h := (C7_theorem fsA "u" "Field2d_Alpha" (cfg2dJson "Alpha") (by decide)
    (by rfl) (by rfl) (by rfl) cfgAlpha (by rfl)).1
  exact ⟨h.mpr (by decide), by rfl⟩

/-- C8: a joystick candidate is admitted exactly when its name is
non-empty, the referenced image exists, and every constructed component
passes its variant check: `button` and `axis` components need positive
`sizePx` width and height and a non-negative `sourceIndex`; `joystick`
(analog stick) components need a positive `radiusPx` and non-negative x/y
source indices.  In particular, a descriptor with one `button` component
of `sizePx [0, 5]` is rejected (see the witness). -/
theorem C8_theorem (fs : FS) (p n : String) (raw : Json)
    (hnot2 : strStarts n "Field2d_" = false)
    (hnot3 : strStarts n "Field3d_" = false)
    (hnotr : strStarts n "Robot_" = false)
    (hpre : strStarts n "Joystick_" = true)
    (hex : fs.fileExists (pjoin (pjoin p n) "config.json") = true)
    (hread : fs.readJson (pjoin (pjoin p n) "config.json") = .ok raw)
    (hobj : raw.objLike = true) (cfg : ConfigJoystick)
    (hparse : parseJoystick (pjoin p n) raw = .ok cfg) :
    candidateOutcome fs p n = .ok (some (.js cfg)) ↔
      (0 < cfg.name.length ∧
       (∀ comp ∈ cfg.components,
         (match comp with
           | .button _ _ _ sizePx sourceIndex _ =>
             0 < sizePx.1 ∧ 0 < sizePx.2 ∧ 0 ≤ sourceIndex
           | .stick _ _ radiusPx xSourceIndex _ ySourceIndex _ _ =>
             0 < radiusPx ∧ 0 ≤ xSourceIndex ∧ 0 ≤ ySourceIndex
           | .axis _ _ sizePx sourceIndex _ =>
             0 < sizePx.1 ∧ 0 < sizePx.2 ∧ 0 ≤ sourceIndex)) ∧
       fs.fileExists (decodeURIComponentS cfg.path) = true) := by
  have hout := outcome_joystick fs p n raw cfg hnot2 hnot3 hnotr hpre hex hread
    hobj hparse
  have hcomps : (∀ comp ∈ cfg.components, joyComponentOk comp = true) ↔
      (∀ comp ∈ cfg.components,
        (match comp with
          | .button _ _ _ sizePx sourceIndex _ =>
            0 < sizePx.1 ∧ 0 < sizePx.2 ∧ 0 ≤ sourceIndex
          | .stick _ _ radiusPx xSourceIndex _ ySourceIndex _ _ =>
            0 < radiusPx ∧ 0 ≤ xSourceIndex ∧ 0 ≤ ySourceIndex
          | .axis _ _ sizePx sourceIndex _ =>
            0 < sizePx.1 ∧ 0 < sizePx.2 ∧ 0 ≤ sourceIndex)) := by
    constructor
    · intro h comp hc
      exact (joyComponentOk_iff comp).mp (h comp hc)
    · intro h comp hc
      exact (joyComponentOk_iff comp).mpr (h comp hc)
  rw [hout]
  cases ha : admitJoystick fs cfg
  · rw [if_neg (by simp [ha])]
    refine iff_of_false (by simp) ?_
    rintro ⟨h1, h2, h3⟩
    exact absurd ((admitJoystick_iff fs cfg).mpr ⟨h1, hcomps.mpr h2, h3⟩)
      (by simp [ha])
  · rw [if_pos (by simp [ha])]
    rcases (admitJoystick_iff fs cfg).mp ha with ⟨h1, h2, h3⟩
    exact iff_of_true rfl ⟨h1, hcomps.mp h2, h3⟩

/-- C8 (witness): scenario G — one `button` component with
`sizePx [0, 5]`, non-empty name and existing image; the candidate is
rejected at admission (outcome is no record). -/
theorem C8_witness :
    candidateOutcome fsG "u" "Joystick_G" ≠ .ok (some (.js cfgGJoy)) ∧
    candidateOutcome fsG "u" "Joystick_G" = .ok none ∧
    0 < cfgGJoy.name.length ∧
    fsG.fileExists (decodeURIComponentS cfgGJoy.path) = true := by
  have hiff := C8_theorem fsG "u" "Joystick_G"
    (Json.obj [("name", .str "G"),
      ("components", .arr [Json.obj [("type", .str "button"),
        ("sizePx", .arr [.num 0, .num 5]), ("sourceIndex", .num 0)]])])
    (by decide) (by decide) (by decide) (by decide) (by rfl) (by rfl) (by rfl)
    cfgGJoy (by rfl)
  refine ⟨?_, by rfl, by decide, by rfl⟩
  intro hc
  rcases hiff.mp hc with ⟨-, hcomp, -⟩
  have hb := hcomp (.button false false (0, 0) (0, 5) 0 none)
    (by
      have he : cfgGJoy.components =
          [JoystickComponent.button false false (0, 0) (0, 5) 0 none] := by rfl
      rw [he]
      exact List.mem_singleton_self _)
  exact absurd hb.1 (lt_irrefl 0)

/-- C10: a candidate whose coerced nested list is empty — the field being
absent, not an array, an empty array, or every element dropped — imposes
no per-element and no auxiliary-file condition: an empty-components
joystick is admitted iff its name is non-empty and the image exists; an
empty-gamePieces 3D field iff name, width and height are valid and the
primary model exists; an empty-components robot iff its name and camera
names are valid and the primary model exists. -/
theorem C10_theorem (fs : FS) :
    (∀ p n raw cfg, strStarts n "Field2d_" = false →
      strStarts n "Field3d_" = false → strStarts n "Robot_" = false →
      strStarts n "Joystick_" = true →
      fs.fileExists (pjoin (pjoin p n) "config.json") = true →
      fs.readJson (pjoin (pjoin p n) "config.json") = .ok raw →
      Json.objLike raw = true → parseJoystick (pjoin p n) raw = .ok cfg →
      cfg.components = [] →
      (candidateOutcome fs p n = .ok (some (.js cfg)) ↔
        (0 < cfg.name.length ∧
         fs.fileExists (decodeURIComponentS cfg.path) = true))) ∧
    (∀ p n raw cfg, strStarts n "Field2d_" = false →
      strStarts n "Field3d_" = true →
      fs.fileExists (pjoin (pjoin p n) "config.json") = true →
      fs.readJson (pjoin (pjoin p n) "config.json") = .ok raw →
      Json.objLike raw = true → parseField3d (pjoin p n) raw = .ok cfg →
      cfg.gamePieces = [] →
      (candidateOutcome fs p n = .ok (some (.f3 cfg)) ↔
        (0 < cfg.name.length ∧ 0 < cfg.widthInches ∧ 0 < cfg.heightInches ∧
         fs.fileExists (decodeURIComponentS cfg.path) = true))) ∧
    (∀ p n raw cfg, strStarts n "Field2d_" = false →
      strStarts n "Field3d_" = false → strStarts n "Robot_" = true →
      fs.fileExists (pjoin (pjoin p n) "config.json") = true →
      fs.readJson (pjoin (pjoin p n) "config.json") = .ok raw →
      Json.objLike raw = true → parseRobot (pjoin p n) raw = .ok cfg →
      cfg.components = [] →
      (candidateOutcome fs p n = .ok (some (.rb cfg)) ↔
        (0 < cfg.name.length ∧ (∀ cam ∈ cfg.cameras, 0 < cam.name.length) ∧
         fs.fileExists (decodeURIComponentS cfg.path) = true))) := by
  refine ⟨?_, ?_, ?_⟩
  · intro p n raw cfg hnot2 hnot3 hnotr hpre hex hread hobj hparse hempty
    have hout := outcome_joystick fs p n raw cfg hnot2 hnot3 hnotr hpre hex
      hread hobj hparse
    rw [hout]
    cases ha : admitJoystick fs cfg
    · rw [if_neg (by simp [ha])]
      refine iff_of_false (by simp) ?_
      rintro ⟨h1, h3⟩
      refine absurd ((admitJoystick_iff fs cfg).mpr ⟨h1, ?_, h3⟩) (by simp [ha])
      rw [hempty]
      simp
    · rw [if_pos (by simp [ha])]
      rcases (admitJoystick_iff fs cfg).mp ha with ⟨h1, -, h3⟩
      exact iff_of_true rfl ⟨h1, h3⟩
  · intro p n raw cfg hnot2 hpre hex hread hobj hparse hempty
    have hout := outcome_field3d fs p n raw cfg hnot2 hpre hex hread hobj hparse
    rw [hout]
    cases ha : admitField3d fs cfg
    · rw [if_neg (by simp [ha])]
      refine iff_of_false (by simp) ?_
      rintro ⟨h1, h2, h3, h4⟩
      refine absurd ((admitField3d_iff fs cfg).mpr ⟨h1, h2, h3, h4, ?_⟩)
        (by simp [ha])
      rw [hempty]
      simp
    · rw [if_pos (by simp [ha])]
      rcases (admitField3d_iff fs cfg).mp ha with ⟨h1, h2, h3, h4, -⟩
      exact iff_of_true rfl ⟨h1, h2, h3, h4⟩
  · intro p n raw cfg hnot2 hnot3 hpre hex hread hobj hparse hempty
    have hout := outcome_robot fs p n raw cfg hnot2 hnot3 hpre hex hread hobj
      hparse
    rw [hout]
    cases ha : admitRobot fs cfg
    · rw [if_neg (by simp [ha])]
      refine iff_of_false (by simp) ?_
      rintro ⟨h1, h2, h3⟩
      refine absurd ((admitRobot_iff fs cfg).mpr ⟨h1, h2, h3, ?_⟩) (by simp [ha])
      rw [hempty]
      simp
    · rw [if_pos (by simp [ha])]
      rcases (admitRobot_iff fs cfg).mp ha with ⟨h1, h2, h3, -⟩
      exact iff_of_true rfl ⟨h1, h2, h3⟩

/-- C10 (witness): scenario H — a joystick with no components, a 3D field
with no game pieces and a robot with no components, each with only its
primary image/model present, are all admitted. -/
theorem C10_witness :
    candidateOutcome fsH "u" "Joystick_E" = .ok (some (.js cfgHJoy)) ∧
    candidateOutcome fsH "u" "Field3d_E" = .ok (some (.f3 cfgH3d)) ∧
    candidateOutcome fsH "u" "Robot_E" = .ok (some (.rb cfgHRobot)) := by
  rcases C10_theorem fsH with ⟨hj, hf, hr⟩
  refine ⟨?_, ?_, ?_⟩
  · exact (hj "u" "Joystick_E" (Json.obj [("name", .str "JE")]) cfgHJoy
      (by decide) (by decide) (by decide) (by decide) (by rfl) (by rfl)
      (by rfl) (by rfl) (by rfl)).mpr (by decide)
  · exact (hf "u" "Field3d_E"
      (Json.obj [("name", .str "FE"), ("widthInches", .num 1),
        ("heightInches", .num 1)]) cfgH3d
      (by decide) (by decide) (by rfl) (by rfl) (by rfl) (by rfl)
      (by rfl)).mpr (by decide)
  · exact (hr "u" "Robot_E" (Json.obj [("name", .str "RE")]) cfgHRobot
      (by decide) (by decide) (by decide) (by rfl) (by rfl) (by rfl)
      (by rfl) (by rfl)).mpr (by decide)

/-- C5: for a 3D-field candidate with `N` game pieces and a robot
candidate with `N` components whose other admission invariants hold, the
record is accepted exactly when the primary model file and every
auxiliary file — named by dropping the primary path's last four
characters and appending `_0.glb` … `_(N-1).glb` — exist; when any of
these files is missing the candidate is rejected whole and stays a
failure. -/
theorem C5_theorem (fs : FS) :
    (∀ p n raw cfg, strStarts n "Field2d_" = false →
      strStarts n "Field3d_" = true →
      fs.fileExists (pjoin (pjoin p n) "config.json") = true →
      fs.readJson (pjoin (pjoin p n) "config.json") = .ok raw →
      Json.objLike raw = true → parseField3d (pjoin p n) raw = .ok cfg →
      0 < cfg.name.length → 0 < cfg.widthInches → 0 < cfg.heightInches →
      ((candidateOutcome fs p n = .ok (some (.f3 cfg)) ↔
        (fs.fileExists (decodeURIComponentS cfg.path) = true ∧
         ∀ i < cfg.gamePieces.length,
           fs.fileExists (auxPath (decodeURIComponentS cfg.path) i) = true)) ∧
       (¬ (fs.fileExists (decodeURIComponentS cfg.path) = true ∧
           ∀ i < cfg.gamePieces.length,
             fs.fileExists (auxPath (decodeURIComponentS cfg.path) i) = true) →
         candidateOutcome fs p n = .ok none))) ∧
    (∀ p n raw cfg, strStarts n "Field2d_" = false →
      strStarts n "Field3d_" = false → strStarts n "Robot_" = true →
      fs.fileExists (pjoin (pjoin p n) "config.json") = true →
      fs.readJson (pjoin (pjoin p n) "config.json") = .ok raw →
      Json.objLike raw = true → parseRobot (pjoin p n) raw = .ok cfg →
      0 < cfg.name.length → (∀ cam ∈ cfg.cameras, 0 < cam.name.length) →
      ((candidateOutcome fs p n = .ok (some (.rb cfg)) ↔
        (fs.fileExists (decodeURIComponentS cfg.path) = true ∧
         ∀ i < cfg.components.length,
           fs.fileExists (auxPath (decodeURIComponentS cfg.path) i) = true)) ∧
       (¬ (fs.fileExists (decodeURIComponentS cfg.path) = true ∧
           ∀ i < cfg.components.length,
             fs.fileExists (auxPath (decodeURIComponentS cfg.path) i) = true) →
         candidateOutcome fs p n = .ok none))) := by
  constructor
  · intro p n raw cfg hnot2 hpre hex hread hobj hparse h1 h2 h3
    have hout := outcome_field3d fs p n raw cfg hnot2 hpre hex hread hobj hparse
    cases ha : admitField3d fs cfg
    · have hnone : candidateOutcome fs p n = .ok none := by
        rw [hout, if_neg (by simp [ha])]
      refine ⟨?_, fun _ => hnone⟩
      rw [hnone]
      refine iff_of_false (by simp) ?_
      rintro ⟨h4, h5⟩
      exact absurd ((admitField3d_iff fs cfg).mpr ⟨h1, h2, h3, h4, h5⟩)
        (by simp [ha])
    · rcases (admitField3d_iff fs cfg).mp ha with ⟨-, -, -, h4, h5⟩
      have hsome : candidateOutcome fs p n = .ok (some (.f3 cfg)) := by
        rw [hout, if_pos (by simp [ha])]
      exact ⟨iff_of_true hsome ⟨h4, h5⟩, fun hneg => absurd ⟨h4, h5⟩ hneg⟩
  · intro p n raw cfg hnot2 hnot3 hpre hex hread hobj hparse h1 h2
    have hout := outcome_robot fs p n raw cfg hnot2 hnot3 hpre hex hread hobj
      hparse
    cases ha : admitRobot fs cfg
    · have hnone : candidateOutcome fs p n = .ok none := by
        rw [hout, if_neg (by simp [ha])]
      refine ⟨?_, fun _ => hnone⟩
      rw [hnone]
      refine iff_of_false (by simp) ?_
      rintro ⟨h4, h5⟩
      exact absurd ((admitRobot_iff fs cfg).mpr ⟨h1, h2, h4, h5⟩) (by simp [ha])
    · rcases (admitRobot_iff fs cfg).mp ha with ⟨-, -, h4, h5⟩
      have hsome : candidateOutcome fs p n = .ok (some (.rb cfg)) := by
        rw [hout, if_pos (by simp [ha])]
      exact ⟨iff_of_true hsome ⟨h4, h5⟩, fun hneg => absurd ⟨h4, h5⟩ hneg⟩

/-- C5 (witness): scenario E — a 3D field with one game piece and a robot
with one component are admitted when `model_0.glb` exists; with the
auxiliary files removed (`fsE2`) both candidates are rejected. -/
theorem C5_witness :
    candidateOutcome fsE "u" "Field3d_F" = .ok (some (.f3 cfgE3d)) ∧
    candidateOutcome fsE "u" "Robot_R" = .ok (some (.rb cfgERobot)) ∧
    candidateOutcome fsE2 "u" "Field3d_F" = .ok none ∧
    candidateOutcome fsE2 "u" "Robot_R" = .ok none := by
  rcases C5_theorem fsE with ⟨hf, hr⟩
  rcases C5_theorem fsE2 with ⟨hf2, hr2⟩
  refine ⟨?_, ?_, ?_, ?_⟩
  · exact ((hf "u" "Field3d_F"
      (Json.obj [("name", .str "F"), ("widthInches", .num 1),
        ("heightInches", .num 1), ("gamePieces", .arr [Json.obj []])])
      cfgE3d (by decide) (by decide) (by rfl) (by rfl) (by rfl) (by rfl)
      (by decide) (by decide) (by decide)).1).mpr (by decide)
  · exact ((hr "u" "Robot_R"
      (Json.obj [("name", .str "R"), ("components", .arr [Json.obj []])])
      cfgERobot (by decide) (by decide) (by decide) (by rfl) (by rfl) (by rfl)
      (by rfl) (by decide) (by decide)).1).mpr (by decide)
  · exact (hf2 "u" "Field3d_F"
      (Json.obj [("name", .str "F"), ("widthInches", .num 1),
        ("heightInches", .num 1), ("gamePieces", .arr [Json.obj []])])
      cfgE3d (by decide) (by decide) (by rfl) (by rfl) (by rfl) (by rfl)
      (by decide) (by decide) (by decide)).2 (by decide)
  · exact (hr2 "u" "Robot_R"
      (Json.obj [("name", .str "R"), ("components", .arr [Json.obj []])])
      cfgERobot (by decide) (by decide) (by decide) (by rfl) (by rfl) (by rfl)
      (by rfl) (by decide) (by decide)).2 (by decide)

/-! ### No-throw conditions for the parsers (claim C4) -/

theorem memProp_ok (j : Json) (k : String) (h : j.objLike = true) :
    j.memProp k = .ok (j.hasProp k) := by
  cases j <;> simp [Json.objLike] at h ⊢ <;> rfl

theorem rotationElemOk_ok (j : Json) (h : j.isNullB = false) :
    ∃ b, rotationElemOk j = .ok b := by
  cases j with
  | null => simp [Json.isNullB] at h
  | bool b => exact ⟨false, rfl⟩
  | num q => exact ⟨false, rfl⟩
  | str s => exact ⟨false, rfl⟩
  | arr elems =>
    unfold rotationElemOk
    rw [memProp_ok _ _ (by rfl), memProp_ok _ _ (by rfl)]
    simp only [bind, Except.bind, pure, Except.pure, Json.isObjectType,
      Bool.not_true]
    repeat' split
    all_goals exact ⟨_, rfl⟩
  | obj fields =>
    unfold rotationElemOk
    rw [memProp_ok _ _ (by rfl), memProp_ok _ _ (by rfl)]
    simp only [bind, Except.bind, pure, Except.pure, Json.isObjectType,
      Bool.not_true]
    repeat' split
    all_goals exact ⟨_, rfl⟩

theorem rotationsEvery_ok (xs : List Json) (h : ∀ j ∈ xs, j.isNullB = false) :
    ∃ b, rotationsEvery xs = .ok b := by
  induction xs with
  | nil => exact ⟨true, rfl⟩
  | cons x rest ih =>
    rcases rotationElemOk_ok x (h x (List.mem_cons_self _ _)) with ⟨b, hb⟩
    rcases ih (fun j hj => h j (List.mem_cons_of_mem _ hj)) with ⟨b', hb'⟩
    unfold rotationsEvery
    rw [hb]
    simp only [bind, Except.bind, pure, Except.pure]
    cases b
    · exact ⟨false, rfl⟩
    · exact ⟨b', by simpa using hb'⟩

theorem rotationsField_ok (j : Json) (k : String)
    (h : rotValSafe (j.look k) = true) : ∃ v, rotationsField j k = .ok v := by
  unfold rotationsField
  cases hp : j.hasProp k with
  | false => exact ⟨none, by simp [hp]; rfl⟩
  | true =>
    have hlook : j.look k = some (j.getProp k) := by simp [Json.look, hp]
    cases hg : j.getProp k with
    | arr elems =>
      have hsafe : ∀ e ∈ elems, e.isNullB = false := by
        rw [hlook, hg] at h
        simp only [rotValSafe, List.all_eq_true] at h
        intro e he
        simpa using h e he
      rcases rotationsEvery_ok elems hsafe with ⟨b, hb⟩
      refine ⟨if b then some elems else none, ?_⟩
      simp [hp, hg, hb, bind, Except.bind, pure, Except.pure]
    | null => exact ⟨none, by simp [hp, hg]; rfl⟩
    | bool b => exact ⟨none, by simp [hp, hg]; rfl⟩
    | num q => exact ⟨none, by simp [hp, hg]; rfl⟩
    | str s => exact ⟨none, by simp [hp, hg]; rfl⟩
    | obj fields => exact ⟨none, by simp [hp, hg]; rfl⟩

theorem elemSafe_parts (g : Json) (h : elemSafe g = true) :
    g.objLike = true ∧ rotValSafe (g.look "rotations") = true ∧
      rotValSafe (g.look "zeroedRotations") = true := by
  unfold elemSafe at h
  simp only [Bool.and_eq_true] at h
  exact ⟨h.1.1, h.1.2, h.2⟩

theorem parseGamePiece_ok (g : Json) (h : elemSafe g = true) :
    ∃ v, parseGamePiece g = .ok v := by
  rcases elemSafe_parts g h with ⟨hobj, hrot, -⟩
  rcases rotationsField_ok g "rotations" hrot with ⟨v, hv⟩
  unfold parseGamePiece
  rw [memProp_ok _ _ hobj, hv]
  exact ⟨_, rfl⟩

theorem parseCamera_ok (g : Json) (h : elemSafe g = true) :
    ∃ v, parseCamera g = .ok v := by
  rcases elemSafe_parts g h with ⟨hobj, hrot, -⟩
  rcases rotationsField_ok g "rotations" hrot with ⟨v, hv⟩
  unfold parseCamera
  rw [memProp_ok _ _ hobj, hv]
  exact ⟨_, rfl⟩

theorem parseComponent_ok (g : Json) (h : elemSafe g = true) :
    ∃ v, parseComponent g = .ok v := by
  rcases elemSafe_parts g h with ⟨hobj, -, hzrot⟩
  rcases rotationsField_ok g "zeroedRotations" hzrot with ⟨v, hv⟩
  unfold parseComponent
  rw [memProp_ok _ _ hobj, hv]
  exact ⟨_, rfl⟩

theorem parseJoyComponent_ok (g : Json) (h : elemSafe g = true) :
    ∃ v, parseJoyComponent g = .ok v := by
  rcases elemSafe_parts g h with ⟨hobj, -, -⟩
  unfold parseJoyComponent
  rw [memProp_ok _ _ hobj]
  simp only [bind, Except.bind, pure, Except.pure]
  repeat' split
  all_goals exact ⟨_, rfl⟩

theorem mapM_ok (f : Json → Except Unit β) (elems : List Json)
    (h : ∀ g ∈ elems, ∃ v, f g = .ok v) : ∃ v, elems.mapM f = .ok v := by
  induction elems with
  | nil => exact ⟨[], rfl⟩
  | cons x rest ih =>
    rcases h x (List.mem_cons_self _ _) with ⟨v, hv⟩
    rcases ih (fun g hg => h g (List.mem_cons_of_mem _ hg)) with ⟨vs, hvs⟩
    refine ⟨v :: vs, ?_⟩
    rw [List.mapM_cons, hv, hvs]
    rfl

theorem elemsSafe_elems (v : Option Json) (elems : List Json)
    (hv : v = some (.arr elems)) (h : elemsSafe v = true) :
    ∀ g ∈ elems, elemSafe g = true := by
  subst hv
  simp only [elemsSafe, List.all_eq_true] at h
  exact h

theorem configSafe_parts (j : Json) (h : configSafe j = true) :
    rotValSafe (j.look "rotations") = true ∧
    elemsSafe (j.look "gamePieces") = true ∧
    elemsSafe (j.look "cameras") = true ∧
    elemsSafe (j.look "components") = true := by
  unfold configSafe at h
  simp only [Bool.and_eq_true] at h
  exact ⟨h.1.1.1, h.1.1.2, h.1.2, h.2⟩

theorem bind_ok (A : Except Unit α) (f : α → Except Unit β)
    (hA : ∃ v, A = .ok v) (hf : ∀ v, ∃ w, f v = .ok w) :
    ∃ w, (A >>= f) = .ok w := by
  rcases hA with ⟨v, hv⟩
  rcases hf v with ⟨w, hw⟩
  refine ⟨w, ?_⟩
  rw [hv]
  simpa [bind, Except.bind] using hw

theorem elemsRaw_safe (j : Json) (k : String)
    (h : elemsSafe (j.look k) = true) :
    ∀ g ∈ j.elemsRaw k, elemSafe g = true := by
  intro g hg
  unfold Json.elemsRaw at hg
  rcases hp : j.hasProp k with _ | _
  · rw [hp] at hg; simp at hg
  · rw [hp] at hg
    simp only [if_true] at hg
    have hlook : j.look k = some (j.getProp k) := by simp [Json.look, hp]
    cases hgp : j.getProp k <;> rw [hgp] at hg <;> simp at hg
    case arr elems =>
      rw [hlook, hgp] at h
      simp only [elemsSafe, List.all_eq_true] at h
      exact h g hg

theorem parseField3d_ok (dir : String) (raw : Json) (h : configSafe raw = true) :
    ∃ v, parseField3d dir raw = .ok v := by
  rcases configSafe_parts raw h with ⟨hrot, hgp, -, -⟩
  unfold parseField3d
  refine bind_ok _ _ (rotationsField_ok raw "rotations" hrot) fun rots => ?_
  refine bind_ok _ _ (mapM_ok parseGamePiece _
    (fun g hg => parseGamePiece_ok g (elemsRaw_safe raw "gamePieces" hgp g hg)))
    fun gps => ⟨_, rfl⟩

theorem parseRobot_ok (dir : String) (raw : Json) (h : configSafe raw = true) :
    ∃ v, parseRobot dir raw = .ok v := by
  rcases configSafe_parts raw h with ⟨hrot, -, hcams, hcomps⟩
  unfold parseRobot
  refine bind_ok _ _ (rotationsField_ok raw "rotations" hrot) fun rots => ?_
  refine bind_ok _ _ (mapM_ok parseCamera _
    (fun g hg => parseCamera_ok g (elemsRaw_safe raw "cameras" hcams g hg)))
    fun cams => ?_
  refine bind_ok _ _ (mapM_ok parseComponent _
    (fun g hg => parseComponent_ok g (elemsRaw_safe raw "components" hcomps g hg)))
    fun comps => ⟨_, rfl⟩

theorem parseJoystick_ok (dir : String) (raw : Json) (h : configSafe raw = true) :
    ∃ v, parseJoystick dir raw = .ok v := by
  rcases configSafe_parts raw h with ⟨-, -, -, hcomps⟩
  unfold parseJoystick
  refine bind_ok _ _ (mapM_ok parseJoyComponent _
    (fun g hg => parseJoyComponent_ok g (elemsRaw_safe raw "components" hcomps g hg)))
    fun l => ⟨_, rfl⟩

theorem candidateOutcome_ok (fs : FS) (p n : String)
    (h : readSafe fs (pjoin (pjoin p n) "config.json") = true) :
    ∃ o, candidateOutcome fs p n = .ok o := by
  cases hex : fs.fileExists (pjoin (pjoin p n) "config.json") with
  | false => exact ⟨none, by unfold candidateOutcome; simp [hex]; rfl⟩
  | true =>
    cases hread : fs.readJson (pjoin (pjoin p n) "config.json") with
    | error e =>
      exact ⟨none, by unfold candidateOutcome; simp [hex, hread]; rfl⟩
    | ok raw =>
      have hsafe : configSafe raw = true := by
        unfold readSafe at h
        rw [hread] at h
        exact h
      cases hobj : raw.objLike with
      | false =>
        exact ⟨none, by unfold candidateOutcome; simp [hex, hread, hobj]; rfl⟩
      | true =>
        by_cases h2 : strStarts n "Field2d_" = true
        · exact ⟨_, outcome_field2d fs p n raw h2 hex hread hobj⟩
        have h2' : strStarts n "Field2d_" = false := Bool.eq_false_iff.mpr h2
        by_cases h3 : strStarts n "Field3d_" = true
        · rcases parseField3d_ok (pjoin p n) raw hsafe with ⟨cfg, hcfg⟩
          exact ⟨_, outcome_field3d fs p n raw cfg h2' h3 hex hread hobj hcfg⟩
        have h3' : strStarts n "Field3d_" = false := Bool.eq_false_iff.mpr h3
        by_cases hr : strStarts n "Robot_" = true
        · rcases parseRobot_ok (pjoin p n) raw hsafe with ⟨cfg, hcfg⟩
          exact ⟨_, outcome_robot fs p n raw cfg h2' h3' hr hex hread hobj hcfg⟩
        have hr' : strStarts n "Robot_" = false := Bool.eq_false_iff.mpr hr
        by_cases hj : strStarts n "Joystick_" = true
        · rcases parseJoystick_ok (pjoin p n) raw hsafe with ⟨cfg, hcfg⟩
          exact ⟨_, outcome_joystick fs p n raw cfg h2' h3' hr' hj hex hread
            hobj hcfg⟩
        have hj' : strStarts n "Joystick_" = false := Bool.eq_false_iff.mpr hj
        exact ⟨none, unprefixed_outcome fs p n
          (by simp [kindPrefixed, h2', h3', hr', hj'])⟩

theorem fold_ok (fs : FS) (cs : List (String × String)) (st : Assets)
    (h : ∀ c ∈ cs, readSafe fs (pjoin (pjoin c.1 c.2) "config.json") = true) :
    ∃ A, cs.foldlM (processCandidate fs) st = .ok A := by
  induction cs generalizing st with
  | nil => exact ⟨st, rfl⟩
  | cons c cs ih =>
    rcases candidateOutcome_ok fs c.1 c.2 (h c (List.mem_cons_self _ _)) with
      ⟨o, ho⟩
    have hstep : ∃ st1, processCandidate fs st c = .ok st1 := by
      unfold processCandidate
      rw [ho]
      cases o
      · exact ⟨_, rfl⟩
      · exact ⟨_, rfl⟩
    rcases hstep with ⟨st1, hst1⟩
    rcases ih st1 (fun d hd => h d (List.mem_cons_of_mem _ hd)) with ⟨A, hA⟩
    refine ⟨A, ?_⟩
    rw [List.foldlM_cons, hst1]
    simpa [bind, Except.bind] using hA

/-- C4 (counterexample): a 3D-field candidate whose `config.json` is the
object `{"gamePieces": [5]}` — a nested array element that is a number,
not an object — makes the whole `loadAssets` call throw an uncaught
`TypeError` (the JavaScript `in` operator applied to a number at line
287), aborting every remaining candidate. -/
theorem C4_counterexample :
    fsD.readJson "u/Field3d_Bad/config.json" =
      .ok (Json.obj [("gamePieces", .arr [.num 5])]) ∧
    loadAssetsE fsD rootsD = .error () :=
  ⟨rfl, rfl⟩

/-- C4 (amended): `loadAssets` recovers locally from a missing,
unreadable or non-object `config.json`, and propagates no exception from
any candidate whose parsed config has only object/array elements in its
nested `gamePieces` / `cameras` / `components` arrays and no `null`
rotation entries; but a non-object element in those nested arrays throws
a `TypeError` that escapes `loadAssets` whole (see
`C4_counterexample`). -/
theorem C4_theorem (fs : FS) (roots : List SourceRoot)
    (h : ∀ c ∈ scanAll roots,
      readSafe fs (pjoin (pjoin c.1 c.2) "config.json") = true) :
    ∃ A, loadAssetsE fs roots = .ok A := by
  rcases fold_ok fs (scanAll roots) emptyAssets h with ⟨raw, hraw⟩
  refine ⟨sortAssets (dedupAssets raw), ?_⟩
  unfold loadAssetsE
  rw [hraw]
  rfl

/-- C4 (witness): the amended theorem at scenario A (all configs are
safe), yielding a successful load. -/
theorem C4_witness : ∃ A, loadAssetsE fsA rootsA = .ok A :=
  C4_theorem fsA rootsA (by decide)

/-! ### Round trip of the percent encoder (claim C9) -/

theorem hexVal_hexDigit (d : Nat) (h : d < 16) : hexVal (hexDigit d) = some d := by
  have : ∀ d' : Fin 16, hexVal (hexDigit d'.val) = some d'.val := by decide
  exact this ⟨d, h⟩

theorem char_toNat_lt (c : Char) : c.toNat < 1114112 := by
  rcases c.valid with h | ⟨-, h⟩
  · exact Nat.lt_trans h (by norm_num)
  · exact h

theorem utf8Bytes_lt_256 (n : Nat) (hn : n < 1114112) :
    ∀ b ∈ utf8Bytes n, b < 256 := by
  intro b hb
  unfold utf8Bytes at hb
  split at hb
  · simp at hb
    omega
  · split at hb
    · simp at hb
      rcases hb with rfl | rfl <;> omega
    · split at hb
      · simp at hb
        rcases hb with rfl | rfl | rfl <;> omega
      · simp at hb
        rcases hb with rfl | rfl | rfl | rfl <;> omega

theorem pctTokens_cons_ne (c : Char) (t : List Char) (hc : c ≠ '%') :
    pctTokens (c :: t) = .inl c :: pctTokens t := by
  match t with
  | [] => simp [pctTokens, hc]
  | [a] => simp [pctTokens, hc]
  | a :: b :: t' => simp [pctTokens, hc]

theorem pctTokens_encByte (b : Nat) (hb : b < 256) (t : List Char) :
    pctTokens (encByte b ++ t) = .inr b :: pctTokens t := by
  have h1 : hexVal (hexDigit (b / 16)) = some (b / 16) :=
    hexVal_hexDigit _ (by omega)
  have h2 : hexVal (hexDigit (b % 16)) = some (b % 16) :=
    hexVal_hexDigit _ (by omega)
  have hval : 16 * (b / 16) + b % 16 = b := by omega
  simp [encByte, pctTokens, h1, h2, hval]

theorem pctTokens_encBytes (bs : List Nat) (hbs : ∀ b ∈ bs, b < 256)
    (t : List Char) :
    pctTokens ((bs.map encByte).flatten ++ t) = bs.map .inr ++ pctTokens t := by
  induction bs with
  | nil => simp
  | cons b rest ih =>
    simp only [List.map_cons, List.flatten_cons, List.append_assoc]
    rw [pctTokens_encByte b (hbs b (List.mem_cons_self _ _))]
    rw [ih (fun x hx => hbs x (List.mem_cons_of_mem _ hx))]
    rfl

theorem asm_one (b : Nat) (h : b < 128) (t : List (Char ⊕ Nat)) :
    utf8Assemble 0 0 (.inr b :: t) = Char.ofNat b :: utf8Assemble 0 0 t := by
  simp [utf8Assemble, h]

theorem asm_lead2 (b : Nat) (h1 : ¬b < 128) (h2 : ¬b < 192) (h3 : b < 224)
    (t : List (Char ⊕ Nat)) :
    utf8Assemble 0 0 (.inr b :: t) = utf8Assemble 1 (b - 192) t := by
  simp [utf8Assemble, h1, h2, h3]

theorem asm_lead3 (b : Nat) (h1 : ¬b < 128) (h2 : ¬b < 192) (h3 : ¬b < 224)
    (h4 : b < 240) (t : List (Char ⊕ Nat)) :
    utf8Assemble 0 0 (.inr b :: t) = utf8Assemble 2 (b - 224) t := by
  simp [utf8Assemble, h1, h2, h3, h4]

theorem asm_lead4 (b : Nat) (h1 : ¬b < 128) (h2 : ¬b < 192) (h3 : ¬b < 224)
    (h4 : ¬b < 240) (t : List (Char ⊕ Nat)) :
    utf8Assemble 0 0 (.inr b :: t) = utf8Assemble 3 (b - 240) t := by
  simp [utf8Assemble, h1, h2, h3, h4]

theorem asm_cont_last (acc b : Nat) (h : contByte b = true)
    (t : List (Char ⊕ Nat)) :
    utf8Assemble 1 acc (.inr b :: t) =
      Char.ofNat (acc * 64 + (b - 128)) :: utf8Assemble 0 0 t := by
  simp [utf8Assemble, h]

theorem asm_cont2 (acc b : Nat) (h : contByte b = true)
    (t : List (Char ⊕ Nat)) :
    utf8Assemble 2 acc (.inr b :: t) =
      utf8Assemble 1 (acc * 64 + (b - 128)) t := by
  simp [utf8Assemble, h]

theorem asm_cont3 (acc b : Nat) (h : contByte b = true)
    (t : List (Char ⊕ Nat)) :
    utf8Assemble 3 acc (.inr b :: t) =
      utf8Assemble 2 (acc * 64 + (b - 128)) t := by
  simp [utf8Assemble, h]

theorem utf8Assemble_inr_bytes (c : Char) (t : List (Char ⊕ Nat)) :
    utf8Assemble 0 0 ((utf8Bytes c.toNat).map .inr ++ t) =
      c :: utf8Assemble 0 0 t := by
  have hn := char_toNat_lt c
  unfold utf8Bytes
  by_cases h1 : c.toNat < 128
  · rw [if_pos h1]
    simp only [List.map_cons, List.map_nil, List.cons_append, List.nil_append]
    rw [asm_one _ h1, Char.ofNat_toNat]
  · by_cases h2 : c.toNat < 2048
    · rw [if_neg h1, if_pos h2]
      simp only [List.map_cons, List.map_nil, List.cons_append, List.nil_append]
      have e4 : contByte (128 + c.toNat % 64) = true := by
        simp only [contByte, Bool.and_eq_true, decide_eq_true_eq]
        omega
      rw [asm_lead2 _ (by omega) (by omega) (by omega), asm_cont_last _ _ e4]
      have harith : (192 + c.toNat / 64 - 192) * 64 + (128 + c.toNat % 64 - 128) =
          c.toNat := by omega
      rw [harith, Char.ofNat_toNat]
    · by_cases h3 : c.toNat < 65536
      · rw [if_neg h1, if_neg h2, if_pos h3]
        simp only [List.map_cons, List.map_nil, List.cons_append,
          List.nil_append]
        have e5 : contByte (128 + c.toNat / 64 % 64) = true := by
          simp only [contByte, Bool.and_eq_true, decide_eq_true_eq]
          omega
        have e6 : contByte (128 + c.toNat % 64) = true := by
          simp only [contByte, Bool.and_eq_true, decide_eq_true_eq]
          omega
        rw [asm_lead3 _ (by omega) (by omega) (by omega) (by omega),
          asm_cont2 _ _ e5, asm_cont_last _ _ e6]
        have harith : ((224 + c.toNat / 4096 - 224) * 64 +
            (128 + c.toNat / 64 % 64 - 128)) * 64 + (128 + c.toNat % 64 - 128) =
            c.toNat := by omega
        rw [harith, Char.ofNat_toNat]
      · rw [if_neg h1, if_neg h2, if_neg h3]
        simp only [List.map_cons, List.map_nil, List.cons_append,
          List.nil_append]
        have e5 : contByte (128 + c.toNat / 4096 % 64) = true := by
          simp only [contByte, Bool.and_eq_true, decide_eq_true_eq]
          omega
        have e6 : contByte (128 + c.toNat / 64 % 64) = true := by
          simp only [contByte, Bool.and_eq_true, decide_eq_true_eq]
          omega
        have e7 : contByte (128 + c.toNat % 64) = true := by
          simp only [contByte, Bool.and_eq_true, decide_eq_true_eq]
          omega
        rw [asm_lead4 _ (by omega) (by omega) (by omega) (by omega),
          asm_cont3 _ _ e5, asm_cont2 _ _ e6, asm_cont_last _ _ e7]
        have harith : (((240 + c.toNat / 262144 - 240) * 64 +
            (128 + c.toNat / 4096 % 64 - 128)) * 64 +
            (128 + c.toNat / 64 % 64 - 128)) * 64 + (128 + c.toNat % 64 - 128) =
            c.toNat := by omega
        rw [harith, Char.ofNat_toNat]

theorem uriUnreserved_percent : uriUnreserved '%' = false := by decide

theorem decURIL_encChar_append (c : Char) (t : List Char) :
    decURIL (encChar c ++ t) = c :: decURIL t := by
  unfold decURIL
  cases hu : uriUnreserved c with
  | true =>
    rw [show encChar c = [c] by simp [encChar, hu]]
    have hc : c ≠ '%' := by
      intro e
      rw [e, uriUnreserved_percent] at hu
      cases hu
    rw [List.singleton_append, pctTokens_cons_ne c t hc]
    rfl
  | false =>
    rw [show encChar c = ((utf8Bytes c.toNat).map encByte).flatten by
      simp [encChar, hu]]
    rw [pctTokens_encBytes _ (utf8Bytes_lt_256 _ (char_toNat_lt c)) t]
    exact utf8Assemble_inr_bytes c (pctTokens t)

theorem decURIL_encURI (l : List Char) : decURIL (encURI l) = l := by
  induction l with
  | nil => rfl
  | cons c rest ih =>
    have hsplit : encURI (c :: rest) = encChar c ++ encURI rest := by
      simp [encURI]
    rw [hsplit, decURIL_encChar_append, ih]
theorem splitSep_ne_nil (sep : Char) (l : List Char) : splitSep sep l ≠ [] := by
  induction l with
  | nil => simp [splitSep]
  | cons c rest ih =>
    by_cases h : c = sep
    · simp [splitSep, h]
    · simp only [splitSep, if_neg h]
      cases hs : splitSep sep rest with
      | nil => simp
      | cons s ss => simp

theorem mem_splitSep_not_mem (sep : Char) (l : List Char) :
    ∀ s ∈ splitSep sep l, sep ∉ s := by
  induction l with
  | nil =>
    intro s hs
    simp [splitSep] at hs
    simp [hs]
  | cons c rest ih =>
    intro s hs
    by_cases h : c = sep
    · simp only [splitSep, if_pos h, List.mem_cons] at hs
      rcases hs with hs | hs
      · simp [hs]
      · exact ih s hs
    · simp only [splitSep, if_neg h] at hs
      cases hrec : splitSep sep rest with
      | nil => exact absurd hrec (splitSep_ne_nil sep rest)
      | cons t ts =>
        rw [hrec] at hs
        simp only [List.mem_cons] at hs
        rcases hs with hs | hs
        · subst hs
          intro hmem
          rcases List.mem_cons.mp hmem with hc | hc
          · exact h hc.symm
          · exact ih t (by rw [hrec]; exact List.mem_cons_self t ts) hc
        · exact ih s (by rw [hrec]; exact List.mem_cons_of_mem t hs)

theorem splitSep_no_sep (sep : Char) (s : List Char) (h : sep ∉ s) :
    splitSep sep s = [s] := by
  induction s with
  | nil => simp [splitSep]
  | cons c rest ih =>
    have hc : ¬c = sep := fun hc => h (by simp [hc])
    have hrest : sep ∉ rest := fun hr => h (List.mem_cons_of_mem c hr)
    simp only [splitSep, if_neg hc, ih hrest]

theorem splitSep_append_sep (sep : Char) (s t : List Char) (h : sep ∉ s) :
    splitSep sep (s ++ sep :: t) = s :: splitSep sep t := by
  induction s with
  | nil => simp [splitSep]
  | cons c rest ih =>
    have hc : ¬c = sep := fun hc => h (by simp [hc])
    have hrest : sep ∉ rest := fun hr => h (List.mem_cons_of_mem c hr)
    simp only [List.cons_append, splitSep, if_neg hc]
    rw [show rest.append (sep :: t) = rest ++ sep :: t from rfl, ih hrest]

theorem joinSep_cons (sep : Char) (s : List Char) (ss : List (List Char))
    (h : ss ≠ []) : joinSep sep (s :: ss) = s ++ sep :: joinSep sep ss := by
  cases ss with
  | nil => exact absurd rfl h
  | cons s2 ss2 => rfl

theorem splitSep_joinSep (sep : Char) (ss : List (List Char)) (hne : ss ≠ [])
    (h : ∀ s ∈ ss, sep ∉ s) : splitSep sep (joinSep sep ss) = ss := by
  induction ss with
  | nil => exact absurd rfl hne
  | cons s rest ih =>
    cases rest with
    | nil =>
      show splitSep sep s = [s]
      exact splitSep_no_sep sep s (h s (List.mem_cons_self s []))
    | cons s2 rest2 =>
      rw [joinSep_cons sep s (s2 :: rest2) (by simp),
        splitSep_append_sep sep _ _ (h s (List.mem_cons_self s _)),
        ih (by simp) (fun x hx => h x (List.mem_cons_of_mem s hx))]

theorem joinSep_splitSep (sep : Char) (l : List Char) :
    joinSep sep (splitSep sep l) = l := by
  induction l with
  | nil => simp [splitSep, joinSep]
  | cons c rest ih =>
    by_cases h : c = sep
    · simp only [splitSep, if_pos h]
      rw [joinSep_cons sep [] _ (splitSep_ne_nil sep rest), ih, h]
      simp
    · simp only [splitSep, if_neg h]
      cases hrec : splitSep sep rest with
      | nil => exact absurd hrec (splitSep_ne_nil sep rest)
      | cons s ss =>
        rw [hrec] at ih
        cases ss with
        | nil =>
          show c :: s = c :: rest
          simp only [joinSep] at ih
          rw [ih]
        | cons s2 ss2 =>
          rw [joinSep_cons sep _ _ (by simp)]
          rw [joinSep_cons sep _ _ (by simp)] at ih
          simp only [List.cons_append, ih]
theorem mapWithIdx_ne_nil (f : Nat → α → β) (k : Nat) (xs : List α)
    (h : xs ≠ []) : mapWithIdx f k xs ≠ [] := by
  cases xs with
  | nil => exact absurd rfl h
  | cons x xs => simp [mapWithIdx]

theorem mem_mapWithIdx (f : Nat → α → β) (k : Nat) (xs : List α) (y : β)
    (h : y ∈ mapWithIdx f k xs) : ∃ i x, x ∈ xs ∧ y = f i x := by
  induction xs generalizing k with
  | nil => simp [mapWithIdx] at h
  | cons x xs ih =>
    simp only [mapWithIdx, List.mem_cons] at h
    rcases h with h | h
    · exact ⟨k, x, List.mem_cons_self x xs, h⟩
    · obtain ⟨i, z, hz, hy⟩ := ih (k + 1) h
      exact ⟨i, z, List.mem_cons_of_mem x hz, hy⟩

theorem mapWithIdx_mapWithIdx (f : Nat → α → β) (g : Nat → β → γ) (k : Nat)
    (xs : List α) :
    mapWithIdx g k (mapWithIdx f k xs) =
      mapWithIdx (fun i x => g i (f i x)) k xs := by
  induction xs generalizing k with
  | nil => rfl
  | cons x xs ih => simp only [mapWithIdx, ih]

theorem mapWithIdx_congr_id (f : Nat → α → α) (hf : ∀ i x, f i x = x)
    (k : Nat) (xs : List α) : mapWithIdx f k xs = xs := by
  induction xs generalizing k with
  | nil => rfl
  | cons x xs ih => simp only [mapWithIdx, hf, ih]

theorem hexDigit_ne (n : Nat) (hn : n < 16) :
    hexDigit n ≠ '/' ∧ hexDigit n ≠ ':' := by
  interval_cases n <;> exact ⟨by decide, by decide⟩

theorem encChar_ne (c : Char) (c' : Char) (h : c' ∈ encChar c) :
    c' ≠ '/' ∧ c' ≠ ':' := by
  by_cases hu : uriUnreserved c
  · simp only [encChar, if_pos hu, List.mem_singleton] at h
    subst h
    constructor
    · intro hc
      rw [hc] at hu
      exact absurd hu (by decide)
    · intro hc
      rw [hc] at hu
      exact absurd hu (by decide)
  · simp only [encChar, if_neg hu, List.mem_flatten] at h
    obtain ⟨l, hl, hc'⟩ := h
    simp only [List.mem_map] at hl
    obtain ⟨b, hb, hlb⟩ := hl
    have hb256 : b < 256 := utf8Bytes_lt_256 c.toNat (char_toNat_lt c) b hb
    subst hlb
    simp only [encByte, List.mem_cons, List.not_mem_nil, or_false] at hc'
    rcases hc' with hc' | hc' | hc'
    · subst hc'
      exact ⟨by decide, by decide⟩
    · subst hc'
      exact hexDigit_ne (b / 16) (by omega)
    · subst hc'
      exact hexDigit_ne (b % 16) (by omega)

theorem encURI_ne (l : List Char) (c' : Char) (h : c' ∈ encURI l) :
    c' ≠ '/' ∧ c' ≠ ':' := by
  simp only [encURI, List.mem_flatten, List.mem_map] at h
  obtain ⟨t, ⟨c, _, hct⟩, hc'⟩ := h
  subst hct
  exact encChar_ne c c' hc'

theorem segEndsColon_encURI (s : List Char) :
    segEndsColon (encURI s) = false := by
  by_contra h
  have hl : (encURI s).getLast? = some ':' := by
    have := Bool.of_not_eq_false h
    simpa [segEndsColon] using this
  exact (encURI_ne s ':' (List.mem_of_mem_getLast? hl)).2 rfl
theorem mapWithIdx_inverse (f g : Nat → α → α) (hfg : ∀ i x, g i (f i x) = x)
    (k : Nat) (xs : List α) : mapWithIdx g k (mapWithIdx f k xs) = xs := by
  induction xs generalizing k with
  | nil => rfl
  | cons x xs ih => simp only [mapWithIdx, hfg, ih]

/-- C9: `encodePath` splits the path on the platform separator,
percent-encodes every segment except a leading drive-letter segment
(ending in `:`), and rejoins with the same separator; segment-wise
percent-decoding of the result recovers every input path exactly, and on
the sample path the space and the `#` come out percent-escaped. -/
theorem C9_theorem :
    (∀ p : String, decodePathSegs (encodePath p) = p) ∧
    encodePath "/tmp/my file#1/img.png" = "/tmp/my%20file%231/img.png" ∧
    decodePathSegs "/tmp/my%20file%231/img.png" = "/tmp/my file#1/img.png" := by
  refine ⟨fun p => ?_, rfl, rfl⟩
  have hpt : ∀ (i : Nat) (x : List Char),
      (fun i seg => if i == 0 && segEndsColon seg then seg else decURIL seg) i
        ((fun i seg => if i == 0 && segEndsColon seg then seg else encURI seg)
          i x) = x := by
    intro i x
    by_cases hc : (i == 0 && segEndsColon x) = true
    · simp [hc]
    · simp [hc, segEndsColon_encURI, decURIL_encURI]
  have hsegs : ∀ s ∈ mapWithIdx
      (fun i seg => if i == 0 && segEndsColon seg then seg else encURI seg)
      0 (splitSep psep p.data), psep ∉ s := by
    intro s hs
    obtain ⟨i, x, hx, hfx⟩ := mem_mapWithIdx _ _ _ _ hs
    subst hfx
    by_cases hc : (i == 0 && segEndsColon x) = true
    · simp only [if_pos hc]
      exact mem_splitSep_not_mem psep p.data x hx
    · simp only [if_neg hc]
      intro hmem
      exact (encURI_ne x psep hmem).1 rfl
  have h2 : decodePathSegs (encodePath p) =
      ⟨joinSep psep
        (mapWithIdx
          (fun i seg => if i == 0 && segEndsColon seg then seg else decURIL seg)
          0
          (splitSep psep
            (joinSep psep
              (mapWithIdx
                (fun i seg =>
                  if i == 0 && segEndsColon seg then seg else encURI seg)
                0 (splitSep psep p.data)))))⟩ := rfl
  rw [h2,
    splitSep_joinSep psep _
      (mapWithIdx_ne_nil _ _ _ (splitSep_ne_nil psep p.data)) hsegs,
    mapWithIdx_inverse _ _ hpt, joinSep_splitSep]
